import Mathlib

/-! Verification of gontributions: the command-line front end.

A shallow embedding of `gontributions.go` (package `main`): `loadConfig`,
`fillTemplate`, `run` and `cmdExconf`, together with the parts of the Go
standard library they call (`encoding/json`, `path/filepath`, `bufio`) and
of the packages `gontrib` and `util` whose declarations the front end uses.

Go strings are byte strings; they are embedded as Lean strings and sizes are
counted in characters.  Effects are made explicit: every function that
touches the outside world takes a `World` and returns the events it caused.
-/

namespace Gontributions

/-! ## Data model -/

/-- A Go slice value.  `nil` is the nil slice (the zero value, printed as
`null` by `encoding/json`), `mk xs` a non-nil slice holding `xs`. -/
inductive Slice (α : Type) where
  | nil
  | mk (elems : List α)
deriving DecidableEq, Repr

/-- The elements of a slice; the nil slice has none (`range` over it runs
zero times, `len` is 0). -/
def Slice.elems {α : Type} : Slice α → List α
  | .nil => []
  | .mk xs => xs

/-- Modelled from the spec: the type `mediawiki.MediaWiki`, declared outside
`gontributions.go`; fields as in the composite literal of `cmdExconf` and in
the configuration file shape (`MediaWikis` list of BaseUrl, User). -/
structure MediaWiki where
  BaseUrl : String := ""
  User : String := ""
deriving DecidableEq, Repr

/-- Modelled from the spec: the type `obs.OpenBuildService`, declared outside
`gontributions.go`; fields as in the composite literal of `cmdExconf` and in
the configuration file shape (`Obs` list of Apiurl, Repo). -/
structure OpenBuildService where
  Apiurl : String := ""
  Repo : String := ""
deriving DecidableEq, Repr

/-- Modelled from the spec: the type `gontrib.Project`, declared outside
`gontributions.go`; fields and their order as in the configuration file
shape (`Name`, `Description`, `URL`, `Gitrepos`, `MediaWikis`, `Obs`), all of
them used by the composite literals of `cmdExconf`. -/
structure Project where
  Name : String := ""
  Description : String := ""
  URL : String := ""
  Gitrepos : Slice String := .nil
  MediaWikis : Slice MediaWiki := .nil
  Obs : Slice OpenBuildService := .nil
deriving DecidableEq, Repr

/-- Modelled from the spec: the type `gontrib.Configuration`, declared
outside `gontributions.go`; top-level `Emails` and `Projects`, as in the
composite literal of `cmdExconf`. -/
structure Configuration where
  Emails : Slice String := .nil
  Projects : Slice Project := .nil
deriving DecidableEq, Repr

/-- Modelled from the spec: the type `gontrib.Contribution`, declared outside
`gontributions.go`; `Name`, `Description`, `URL` copied from the project and
the non-negative `Count`. -/
structure Contribution where
  Name : String := ""
  Description : String := ""
  URL : String := ""
  Count : Nat := 0
deriving DecidableEq, Repr

/-! ## `encoding/json`: `MarshalIndent` for the configuration types -/

/-- Lower-case hexadecimal digit of `n < 16`. -/
def hexDigit (n : Nat) : Char :=
  if n < 10 then Char.ofNat (48 + n) else Char.ofNat (87 + n)

/-- The four hexadecimal digits of `n < 65536`. -/
def hex4 (n : Nat) : List Char :=
  [hexDigit (n / 4096 % 16), hexDigit (n / 256 % 16), hexDigit (n / 16 % 16), hexDigit (n % 16)]

/-- How `encoding/json` writes one character of a string (HTML escaping on,
as in `Marshal`): quote and backslash are backslash-escaped, newline,
carriage return and tab get their short forms, other control characters and
`<`, `>`, `&`, U+2028, U+2029 become `\uXXXX`. -/
def escapeChar (c : Char) : List Char :=
  if c = '"' then ['\\', '"']
  else if c = '\\' then ['\\', '\\']
  else if c = '\n' then ['\\', 'n']
  else if c = '\r' then ['\\', 'r']
  else if c = '\t' then ['\\', 't']
  else if c.toNat < 0x20 ∨ c = '<' ∨ c = '>' ∨ c = '&' ∨ c.toNat = 0x2028 ∨ c.toNat = 0x2029 then
    ['\\', 'u'] ++ hex4 c.toNat
  else [c]

/-- A JSON string literal. -/
def encodeString (s : String) : String :=
  String.mk ('"' :: (s.data.flatMap escapeChar ++ ['"']))

/-- The indent argument of `json.MarshalIndent(configuration, "", "    ")`. -/
def indentUnit : String := "    "

/-- A line break followed by the indentation of nesting depth `depth`. -/
def newline (depth : Nat) : String :=
  "\n" ++ String.join (List.replicate depth indentUnit)

/-- An indented JSON array of already encoded items; an empty array stays
`[]`. -/
def encodeArray (depth : Nat) (items : List String) : String :=
  match items with
  | [] => "[]"
  | _ => "[" ++ newline (depth + 1) ++ String.intercalate ("," ++ newline (depth + 1)) items
           ++ newline depth ++ "]"

/-- An indented JSON object of already encoded member values. -/
def encodeObject (depth : Nat) (members : List (String × String)) : String :=
  match members with
  | [] => "\x7b\x7d"
  | _ => "\x7b" ++ newline (depth + 1)
           ++ String.intercalate ("," ++ newline (depth + 1))
                (members.map fun m => encodeString m.1 ++ ": " ++ m.2)
           ++ newline depth ++ "\x7d"

/-- A slice: `null` when nil, otherwise the array of its elements. -/
def encodeSlice {α : Type} (enc : Nat → α → String) (depth : Nat) : Slice α → String
  | .nil => "null"
  | .mk xs => encodeArray depth (xs.map (enc (depth + 1)))

def encodeMediaWiki (depth : Nat) (m : MediaWiki) : String :=
  encodeObject depth [("BaseUrl", encodeString m.BaseUrl), ("User", encodeString m.User)]

def encodeOpenBuildService (depth : Nat) (o : OpenBuildService) : String :=
  encodeObject depth [("Apiurl", encodeString o.Apiurl), ("Repo", encodeString o.Repo)]

def encodeProject (depth : Nat) (p : Project) : String :=
  encodeObject depth
    [("Name", encodeString p.Name),
     ("Description", encodeString p.Description),
     ("URL", encodeString p.URL),
     ("Gitrepos", encodeSlice (fun _ s => encodeString s) (depth + 1) p.Gitrepos),
     ("MediaWikis", encodeSlice encodeMediaWiki (depth + 1) p.MediaWikis),
     ("Obs", encodeSlice encodeOpenBuildService (depth + 1) p.Obs)]

/-- The call `json.MarshalIndent(configuration, "", "    ")`.  None of the
configuration types holds a value `encoding/json` refuses, so the error
result is always nil. -/
def marshalIndent (c : Configuration) : Except String String :=
  .ok (encodeObject 0
    [("Emails", encodeSlice (fun _ s => encodeString s) 1 c.Emails),
     ("Projects", encodeSlice encodeProject 1 c.Projects)])

/-! ## `encoding/json`: reading one value from a stream -/

/-- A JSON value as the scanner of `encoding/json` delimits it. -/
inductive Json where
  | null
  | bool (b : Bool)
  | num (lit : String)
  | str (s : String)
  | arr (items : List Json)
  | obj (members : List (String × Json))

/-- JSON white space. -/
def isSpace (c : Char) : Bool :=
  c = ' ' ∨ c = '\t' ∨ c = '\r' ∨ c = '\n'

def skipSpace : List Char → List Char
  | [] => []
  | c :: cs => if isSpace c then skipSpace cs else c :: cs

/-- Value of a hexadecimal digit, upper or lower case. -/
def hexVal (c : Char) : Option Nat :=
  if '0' ≤ c ∧ c ≤ '9' then some (c.toNat - 48)
  else if 'a' ≤ c ∧ c ≤ 'f' then some (c.toNat - 87)
  else if 'A' ≤ c ∧ c ≤ 'F' then some (c.toNat - 55)
  else none

/-- Value of the four hexadecimal digits of a `\u` escape. -/
def hexVal4 (a b c d : Char) : Option Nat :=
  match hexVal a, hexVal b, hexVal c, hexVal d with
  | some x, some y, some z, some w => some (x * 4096 + y * 256 + z * 16 + w)
  | _, _, _, _ => none

/-- The character of a one-letter escape. -/
def simpleEscape (e : Char) : Option Char :=
  if e = '"' then some '"'
  else if e = '\\' then some '\\'
  else if e = '/' then some '/'
  else if e = 'b' then some (Char.ofNat 8)
  else if e = 'f' then some (Char.ofNat 12)
  else if e = 'n' then some '\n'
  else if e = 'r' then some '\r'
  else if e = 't' then some '\t'
  else none

/-- The Unicode replacement character, written for a lone surrogate. -/
def replacementChar : Char := Char.ofNat 0xFFFD

/-- A pending high surrogate that found no partner becomes U+FFFD. -/
def flushPending (pending : Option Nat) (acc : List Char) : List Char :=
  match pending with
  | none => acc
  | some _ => replacementChar :: acc

/-- Scans a string literal after its opening quote and unquotes it: returns
the string and the input after the closing quote.  `pending` is a high
surrogate read from the previous `\u` escape, `acc` the characters so far,
last first. -/
def scanString : Option Nat → List Char → List Char → Except String (String × List Char)
  | _, _, [] => .error "unexpected EOF"
  | pending, acc, c :: cs =>
    if c = '"' then .ok (String.mk (flushPending pending acc).reverse, cs)
    else if c = '\\' then
      match cs with
      | [] => .error "unexpected EOF"
      | e :: rest =>
        if e = 'u' then
          match rest with
          | a :: b :: c3 :: d :: rest4 =>
            match hexVal4 a b c3 d with
            | none => .error "invalid character in \\u hexadecimal character escape"
            | some n =>
              match pending with
              | some h =>
                if 0xDC00 ≤ n ∧ n < 0xE000 then
                  scanString none (Char.ofNat ((h - 0xD800) * 1024 + (n - 0xDC00) + 0x10000) :: acc) rest4
                else if 0xD800 ≤ n ∧ n < 0xDC00 then
                  scanString (some n) (replacementChar :: acc) rest4
                else scanString none (Char.ofNat n :: replacementChar :: acc) rest4
              | none =>
                if 0xD800 ≤ n ∧ n < 0xDC00 then scanString (some n) acc rest4
                else if 0xDC00 ≤ n ∧ n < 0xE000 then scanString none (replacementChar :: acc) rest4
                else scanString none (Char.ofNat n :: acc) rest4
          | _ => .error "unexpected EOF"
        else
          match simpleEscape e with
          | some ch => scanString none (ch :: flushPending pending acc) rest
          | none => .error "invalid character in string escape code"
    else if c.toNat < 0x20 then .error "invalid character in string literal"
    else scanString none (c :: flushPending pending acc) cs

/-- Splits off the first character when it is one of `signs`. -/
def takeSign (signs : List Char) : List Char → List Char × List Char
  | [] => ([], [])
  | s :: r => if s ∈ signs then ([s], r) else ([], s :: r)

/-- The exponent part of a number, if one follows. -/
def scanExponent (lit : List Char) (cs : List Char) : Except String (List Char × List Char) :=
  match cs with
  | e :: rest =>
    if e = 'e' ∨ e = 'E' then
      match (takeSign ['+', '-'] rest).2.span Char.isDigit with
      | ([], _) => .error "invalid character in exponent of numeric literal"
      | (d :: ds, r) => .ok (lit ++ e :: (takeSign ['+', '-'] rest).1 ++ d :: ds, r)
    else .ok (lit, cs)
  | [] => .ok (lit, cs)

/-- The fraction part of a number, if one follows, then the exponent. -/
def scanFraction (lit : List Char) (cs : List Char) : Except String (List Char × List Char) :=
  match cs with
  | dot :: rest =>
    if dot = '.' then
      match rest.span Char.isDigit with
      | ([], _) => .error "invalid character after decimal point in numeric literal"
      | (d :: ds, r) => scanExponent (lit ++ dot :: d :: ds) r
    else scanExponent lit cs
  | [] => .ok (lit, cs)

/-- Scans a number literal: an optional minus, `0` or a digit run without a
leading zero, an optional fraction, an optional exponent. -/
def scanNumber (cs : List Char) : Except String (List Char × List Char) :=
  match (takeSign ['-'] cs).2 with
  | [] => .error "unexpected EOF"
  | d :: r =>
    if d = '0' then scanFraction ((takeSign ['-'] cs).1 ++ [d]) r
    else if d.isDigit then
      scanFraction ((takeSign ['-'] cs).1 ++ d :: (r.span Char.isDigit).1) (r.span Char.isDigit).2
    else .error "invalid character in numeric literal"

/-- What the value parser is in the middle of. -/
inductive Mode where
  /-- A value is expected. -/
  | value
  /-- Inside an array, after `[` or a comma: an item is expected, then a
  comma or `]`. -/
  | items (acc : List Json)
  /-- Inside an object, after `\x7b` or a comma: a key, a colon and a value
  are expected, then a comma or the closing brace. -/
  | members (acc : List (String × Json))

/-- Reads a value that is not an array or object, `c` being its first
character: a string, a number or one of the literals `true`, `false`,
`null`. -/
def scanScalar (c : Char) (rest : List Char) : Except String (Json × List Char) :=
  if c = '"' then
    match scanString none [] rest with
    | .ok (s, r) => .ok (.str s, r)
    | .error e => .error e
  else if c = '-' ∨ c.isDigit then
    match scanNumber (c :: rest) with
    | .ok (lit, r) => .ok (.num (String.mk lit), r)
    | .error e => .error e
  else if (c :: rest).take 4 = ['t', 'r', 'u', 'e'] then .ok (.bool true, rest.drop 3)
  else if (c :: rest).take 5 = ['f', 'a', 'l', 's', 'e'] then .ok (.bool false, rest.drop 4)
  else if (c :: rest).take 4 = ['n', 'u', 'l', 'l'] then .ok (.null, rest.drop 3)
  else .error "invalid character looking for beginning of value"

/-- Recursive-descent reading of one JSON value.  Every call spends one unit
of `fuel`; the result is `none` when the fuel runs out, which it does not
when there are more than twice as many units as characters
(`parse_fuel_enough`). -/
def parse : Nat → Mode → List Char → Option (Except String (Json × List Char))
  | 0, _, _ => none
  | fuel + 1, .value, cs =>
    match skipSpace cs with
    | [] => some (.error "unexpected EOF")
    | c :: rest =>
      if c = Char.ofNat 0x7b then
        match skipSpace rest with
        | [] => some (.error "unexpected EOF")
        | c2 :: rest2 =>
          if c2 = Char.ofNat 0x7d then some (.ok (.obj [], rest2))
          else parse fuel (.members []) (c2 :: rest2)
      else if c = '[' then
        match skipSpace rest with
        | [] => some (.error "unexpected EOF")
        | c2 :: rest2 =>
          if c2 = ']' then some (.ok (.arr [], rest2))
          else parse fuel (.items []) (c2 :: rest2)
      else some (scanScalar c rest)
  | fuel + 1, .items acc, cs =>
    match parse fuel .value cs with
    | none => none
    | some (.error e) => some (.error e)
    | some (.ok (v, rest)) =>
      match skipSpace rest with
      | [] => some (.error "unexpected EOF")
      | c :: rest2 =>
        if c = ',' then parse fuel (.items (v :: acc)) rest2
        else if c = ']' then some (.ok (.arr (v :: acc).reverse, rest2))
        else some (.error "invalid character after array element")
  | fuel + 1, .members acc, cs =>
    match skipSpace cs with
    | [] => some (.error "unexpected EOF")
    | q :: rest =>
      if q = '"' then
        match scanString none [] rest with
        | .error e => some (.error e)
        | .ok (key, rest2) =>
          match skipSpace rest2 with
          | [] => some (.error "unexpected EOF")
          | colon :: rest3 =>
            if colon = ':' then
              match parse fuel .value rest3 with
              | none => none
              | some (.error e) => some (.error e)
              | some (.ok (v, rest4)) =>
                match skipSpace rest4 with
                | [] => some (.error "unexpected EOF")
                | c :: rest5 =>
                  if c = ',' then parse fuel (.members ((key, v) :: acc)) rest5
                  else if c = Char.ofNat 0x7d then
                    some (.ok (.obj ((key, v) :: acc).reverse, rest5))
                  else some (.error "invalid character after object key:value pair")
            else some (.error "invalid character after object key")
      else some (.error "invalid character looking for beginning of object key string")

/-- The value `Decoder.Decode` reads next from a stream holding `cs`: the
first JSON value, checked for syntax as a whole before anything is stored.
The value ends at its last character and what follows it is not looked at:
a complaint about it is left to the next call of `Decode`, which `loadConfig`
never makes.  An input of white space only is `EOF`.  The fuel given to
`parse` never runs out (`readValue_fuel`).  The limit Go 1.15 and later put on
the nesting depth is not modelled. -/
def readValue (cs : List Char) : Except String Json :=
  match skipSpace cs with
  | [] => .error "EOF"
  | c :: rest =>
    match parse (2 * cs.length + 2) .value (c :: rest) with
    | none => .error "json: out of fuel"
    | some (.error e) => .error e
    | some (.ok (v, _)) => .ok v

/-! ## `encoding/json`: storing a value into the configuration types -/

/-- The word `encoding/json` uses for a value in a type error. -/
def Json.kind : Json → String
  | .null => "null"
  | .bool _ => "bool"
  | .num _ => "number"
  | .str _ => "string"
  | .arr _ => "array"
  | .obj _ => "object"

/-- Text of an `UnmarshalTypeError`. -/
def typeError (j : Json) (goType : String) : String :=
  "json: cannot unmarshal " ++ j.kind ++ " into Go value of type " ++ goType

/-- The decoder keeps the first type error and goes on decoding. -/
def saveError (saved new : Option String) : Option String :=
  match saved with
  | some e => some e
  | none => new

/-- Case folding of an object key for the match against a field name: ASCII
letters fold to lower case, and so do the two non-ASCII characters whose
simple fold is an ASCII letter (U+017F to `s`, U+212A to `k`). -/
def foldKey (key : String) : String :=
  String.mk (key.data.map fun c =>
    if c.toNat = 0x17F then 's' else if c.toNat = 0x212A then 'k' else c.toLower)

/-- Storing into a `string`: a JSON string is stored, `null` leaves the
value alone, anything else is a type error and leaves the value alone. -/
def decodeString (cur : String) : Json → String × Option String
  | .str s => (s, none)
  | .null => (cur, none)
  | j => (cur, some (typeError j "string"))

/-- Storing the items of a JSON array into the elements of a slice: item
`i` is stored into element `i` when the slice already has one, else into a
zero value; the result has as many elements as the array has items. -/
def decodeItems {α : Type} (zero : α) (dec : α → Json → α × Option String) :
    List α → List Json → List α × Option String
  | _, [] => ([], none)
  | [], j :: js =>
    let r := dec zero j
    let rs := decodeItems zero dec [] js
    (r.1 :: rs.1, saveError r.2 rs.2)
  | x :: xs, j :: js =>
    let r := dec x j
    let rs := decodeItems zero dec xs js
    (r.1 :: rs.1, saveError r.2 rs.2)

/-- Storing into a slice: an array gives a non-nil slice of its items,
`null` gives the nil slice, anything else is a type error. -/
def decodeSlice {α : Type} (goType : String) (zero : α) (dec : α → Json → α × Option String)
    (cur : Slice α) : Json → Slice α × Option String
  | .arr items =>
    let r := decodeItems zero dec cur.elems items
    (.mk r.1, r.2)
  | .null => (.nil, none)
  | j => (cur, some (typeError j goType))

/-- Storing into a `mediawiki.MediaWiki`: the members of an object are
stored in document order into the fields their keys name, unknown keys are
skipped. -/
def decodeMediaWiki (cur : MediaWiki) : Json → MediaWiki × Option String
  | .obj members =>
    members.foldl (fun (acc : MediaWiki × Option String) (m : String × Json) =>
      if foldKey m.1 = "baseurl" then
        let r := decodeString acc.1.BaseUrl m.2
        ({ acc.1 with BaseUrl := r.1 }, saveError acc.2 r.2)
      else if foldKey m.1 = "user" then
        let r := decodeString acc.1.User m.2
        ({ acc.1 with User := r.1 }, saveError acc.2 r.2)
      else acc) (cur, none)
  | .null => (cur, none)
  | j => (cur, some (typeError j "mediawiki.MediaWiki"))

/-- Storing into an `obs.OpenBuildService`. -/
def decodeOpenBuildService (cur : OpenBuildService) : Json → OpenBuildService × Option String
  | .obj members =>
    members.foldl (fun (acc : OpenBuildService × Option String) (m : String × Json) =>
      if foldKey m.1 = "apiurl" then
        let r := decodeString acc.1.Apiurl m.2
        ({ acc.1 with Apiurl := r.1 }, saveError acc.2 r.2)
      else if foldKey m.1 = "repo" then
        let r := decodeString acc.1.Repo m.2
        ({ acc.1 with Repo := r.1 }, saveError acc.2 r.2)
      else acc) (cur, none)
  | .null => (cur, none)
  | j => (cur, some (typeError j "obs.OpenBuildService"))

/-- Storing into a `gontrib.Project`. -/
def decodeProject (cur : Project) : Json → Project × Option String
  | .obj members =>
    members.foldl (fun (acc : Project × Option String) (m : String × Json) =>
      if foldKey m.1 = "name" then
        let r := decodeString acc.1.Name m.2
        ({ acc.1 with Name := r.1 }, saveError acc.2 r.2)
      else if foldKey m.1 = "description" then
        let r := decodeString acc.1.Description m.2
        ({ acc.1 with Description := r.1 }, saveError acc.2 r.2)
      else if foldKey m.1 = "url" then
        let r := decodeString acc.1.URL m.2
        ({ acc.1 with URL := r.1 }, saveError acc.2 r.2)
      else if foldKey m.1 = "gitrepos" then
        let r := decodeSlice "[]string" "" decodeString acc.1.Gitrepos m.2
        ({ acc.1 with Gitrepos := r.1 }, saveError acc.2 r.2)
      else if foldKey m.1 = "mediawikis" then
        let r := decodeSlice "[]mediawiki.MediaWiki" {} decodeMediaWiki acc.1.MediaWikis m.2
        ({ acc.1 with MediaWikis := r.1 }, saveError acc.2 r.2)
      else if foldKey m.1 = "obs" then
        let r := decodeSlice "[]obs.OpenBuildService" {} decodeOpenBuildService acc.1.Obs m.2
        ({ acc.1 with Obs := r.1 }, saveError acc.2 r.2)
      else acc) (cur, none)
  | .null => (cur, none)
  | j => (cur, some (typeError j "gontrib.Project"))

/-- Storing into a `gontrib.Configuration`. -/
def decodeConfiguration (cur : Configuration) : Json → Configuration × Option String
  | .obj members =>
    members.foldl (fun (acc : Configuration × Option String) (m : String × Json) =>
      if foldKey m.1 = "emails" then
        let r := decodeSlice "[]string" "" decodeString acc.1.Emails m.2
        ({ acc.1 with Emails := r.1 }, saveError acc.2 r.2)
      else if foldKey m.1 = "projects" then
        let r := decodeSlice "[]gontrib.Project" {} decodeProject acc.1.Projects m.2
        ({ acc.1 with Projects := r.1 }, saveError acc.2 r.2)
      else acc) (cur, none)
  | .null => (cur, none)
  | j => (cur, some (typeError j "gontrib.Configuration"))

/-- The call `json.NewDecoder(file).Decode(&gontribs)` on a file holding
`content`, `gontribs` being `cur` before the call: the next value of the
stream is read; a syntax error is returned with nothing stored; otherwise
the value is stored field by field and the first type error, if any, is
returned together with whatever was stored. -/
def decode (content : String) (cur : Configuration) : Configuration × Option String :=
  match readValue content.data with
  | .error e => (cur, some e)
  | .ok j => decodeConfiguration cur j

/-! ## `path/filepath` (Unix) -/

/-- Splits a path at its slashes. -/
def splitSlash : List Char → List (List Char)
  | [] => [[]]
  | c :: cs =>
    if c = '/' then [] :: splitSlash cs
    else
      match splitSlash cs with
      | [] => [[c]]
      | comp :: comps => (c :: comp) :: comps

/-- One step of `filepath.Clean` over the path elements kept so far (last
first): empty elements and `.` are dropped, `..` removes the element before
it, stays when there is none to remove in a relative path, and is dropped at
the root. -/
def cleanStep (rooted : Bool) (kept : List (List Char)) (comp : List Char) : List (List Char) :=
  if comp = [] ∨ comp = ['.'] then kept
  else if comp = ['.', '.'] then
    match kept with
    | [] => if rooted then [] else [comp]
    | top :: below => if top = ['.', '.'] then comp :: kept else below
  else comp :: kept

/-- The function `filepath.Clean`: the shortest path naming the same file by purely
lexical processing. -/
def filepathClean (path : String) : String :=
  let rooted : Bool := path.data.head? = some '/'
  let kept := ((splitSlash path.data).foldl (cleanStep rooted) []).reverse
  let body := String.intercalate "/" (kept.map String.mk)
  if rooted then "/" ++ body
  else if kept = [] then "."
  else body

/-- The call `filepath.Join(a, b)`: the elements from the first non-empty one on are
joined with a slash and cleaned; the result is empty when both are empty. -/
def filepathJoin (a b : String) : String :=
  if a ≠ "" then filepathClean (a ++ "/" ++ b)
  else if b ≠ "" then filepathClean b
  else ""

/-! ## `bufio.Writer` over an `*os.File` -/

/-- Size of the buffer `bufio.NewWriter` allocates. -/
def defaultBufSize : Nat := 4096

/-- Text of `os.ErrInvalid`, the error of every method called on a nil
`*os.File`. -/
def errInvalid : String := "invalid argument"

/-- State of the `bufio.Writer` that `run` wraps around the created file.
`valid` is false when the wrapped `*os.File` is nil (the file could not be
created); `written` is what has reached the file, `buf` what is buffered,
`err` the error the writer keeps once a write has failed. -/
structure Writer where
  valid : Bool
  written : String := ""
  buf : String := ""
  err : Option String := none
deriving DecidableEq, Repr

/-- The call `bufio.NewWriter(f)`: an empty buffer, no error. -/
def newWriter (valid : Bool) : Writer := { valid := valid }

/-- The method `(*bufio.Writer).Flush`: the buffered text goes to the file;
a failure is kept as the error of the writer and the buffer stays. -/
def Writer.flush (b : Writer) : Writer × Option String :=
  match b.err with
  | some e => (b, some e)
  | none =>
    if b.buf.length = 0 then (b, none)
    else if b.valid then ({ b with written := b.written ++ b.buf, buf := "" }, none)
    else ({ b with err := some errInvalid }, some errInvalid)

/-- The method `(*bufio.Writer).Write(p)`: `p` is buffered when it fits; otherwise an
empty buffer lets `p` go to the file directly, and a non-empty one is filled
up and flushed before the rest of `p` is handled the same way. -/
def Writer.write (b : Writer) (p : String) : Writer × Option String :=
  match b.err with
  | some e => (b, some e)
  | none =>
    if p.length ≤ defaultBufSize - b.buf.length then ({ b with buf := b.buf ++ p }, none)
    else if b.buf.length = 0 then
      if b.valid then ({ b with written := b.written ++ p }, none)
      else ({ b with err := some errInvalid }, some errInvalid)
    else
      let n := defaultBufSize - b.buf.length
      match ({ b with buf := b.buf ++ p.take n } : Writer).flush with
      | (b1, some e) => (b1, some e)
      | (b1, none) =>
        let rest := p.drop n
        if rest.length ≤ defaultBufSize then ({ b1 with buf := rest }, none)
        else ({ b1 with written := b1.written ++ rest }, none)

/-! ## The outside world -/

/-- What a path names. -/
inductive FileNode where
  /-- Nothing that can be opened. -/
  | absent
  /-- Something that opens but cannot be read, such as a directory. -/
  | unreadable
  /-- A regular file with its content. -/
  | regular (content : String)
deriving DecidableEq, Repr

/-- Everything `run` depends on besides its flags.  `asset` is the generated
function `Asset` of the bundled templates, `fileExists` is `util.FileExists`
and `scanContributions` is `gontrib.ScanContributions` on the present state
of the sources; `parseTemplate` and `executeTemplate` stand for
`html/template`: the parse error of a template text, and the chunks a parsed
template writes for given data together with the error it ends in. -/
structure World where
  files : String → FileNode
  getenv : String → String
  asset : String → Except String String
  fileExists : String → Bool
  createError : String → Option String
  scanContributions : Configuration → List Contribution
  parseTemplate : String → Option String
  executeTemplate : String → List Contribution → List String × Option String

/-- A call `run` makes to the outside, or the end of the process. -/
inductive Event where
  | openFile (path : String)
  | getenv (name : String)
  | asset (name : String)
  | fileExists (path : String)
  | readFile (path : String)
  | scanContributions (c : Configuration)
  | create (path : String)
  | parseTemplate (text : String)
  | executeTemplate (data : List Contribution)
  | stderr (text : String)
  | stdout (text : String)
  | printInfo (text : String)
  | exit (code : Nat)
deriving DecidableEq, Repr

/-- The call `os.OpenFile(path, os.O_RDONLY, 0660)`: an error, or a stream whose
reading gives the content or fails. -/
def openFile (w : World) (path : String) : Except String (Except String String) :=
  match w.files path with
  | .absent => .error ("open " ++ path ++ ": no such file or directory")
  | .unreadable => .ok (.error ("read " ++ path ++ ": is a directory"))
  | .regular content => .ok (.ok content)

/-- The call `ioutil.ReadFile(path)`: the file is opened and read to its end. -/
def readFile (w : World) (path : String) : Except String String :=
  match openFile w path with
  | .error e => .error e
  | .ok stream => stream

/-- The values of the global flags `--config`, `--template` and `--output`
as `cli.GlobalString` returns them, with the defaults `main` declares. -/
structure Context where
  config : String := "gontrib.json"
  template : String := "default.html"
  output : String := "output.html"
deriving DecidableEq, Repr

/-! ## `gontributions.go` -/

def templateFolderName : String := "templates"

def templatesFolderEnv : String := "GONTRIB_TEMPLATES_PTH"

/-- The function `loadConfig(filename)`: the events, and the two results `gontribs` and
`err`.  When the file cannot be opened `gontribs` is the zero value;
otherwise it is what `Decode` stored, also when `Decode` returns an error. -/
def loadConfig (w : World) (filename : String) : List Event × Configuration × Option String :=
  match openFile w filename with
  | .error err => ([.openFile filename], {}, some err)
  | .ok (.error err) => ([.openFile filename], {}, some err)
  | .ok (.ok content) =>
    let r := decode content {}
    ([.openFile filename], r.1, r.2)

/-- Result of `fillTemplate`: the events, the writer afterwards, and the
exit status when the process was terminated inside. -/
structure FillResult where
  events : List Event
  writer : Writer
  exit : Option Nat
deriving DecidableEq, Repr

/-- The writes `t.Execute` makes: chunk after chunk until one fails. -/
def writeChunks (b : Writer) : List String → Writer × Option String
  | [] => (b, none)
  | p :: ps =>
    match b.write p with
    | (b1, some e) => (b1, some e)
    | (b1, none) => writeChunks b1 ps

/-- The function `fillTemplate(contributions, tempContent, writer)`: the
template text is parsed and, when that succeeds, executed on the
contributions into the writer; either failure is written to stderr and ends
the process with exit status 1. -/
def fillTemplate (w : World) (contributions : List Contribution) (tempContent : String)
    (writer : Writer) : FillResult :=
  match w.parseTemplate tempContent with
  | some err =>
    { events := [.parseTemplate tempContent, .stderr (err ++ "\n"), .exit 1],
      writer := writer, exit := some 1 }
  | none =>
    let out := w.executeTemplate tempContent contributions
    let r := writeChunks writer out.1
    match saveError r.2 out.2 with
    | some err =>
      { events := [.parseTemplate tempContent, .executeTemplate contributions,
                   .stderr (err ++ "\n"), .exit 1],
        writer := r.1, exit := some 1 }
    | none =>
      { events := [.parseTemplate tempContent, .executeTemplate contributions],
        writer := r.1, exit := none }

/-- How a process ends: what it did, the files it leaves, its exit status. -/
structure Outcome where
  events : List Event
  files : String → FileNode
  status : Nat

/-- The template text of `run` (lines 108 to 133): the events, and either the
message written to stderr before `os.Exit(1)` or `templateData`. -/
def templateData (w : World) (templateName : String) : List Event × Except String String :=
  let templatesPath := w.getenv templatesFolderEnv
  if templatesPath = "" then
    let name := filepathJoin templateFolderName templateName
    match w.asset name with
    | .error err => ([.getenv templatesFolderEnv, .asset name], .error (err ++ "\n"))
    | .ok data => ([.getenv templatesFolderEnv, .asset name], .ok data)
  else
    let absoluteTemplatePath := filepathJoin templatesPath templateName
    if !w.fileExists absoluteTemplatePath then
      ([.getenv templatesFolderEnv, .fileExists absoluteTemplatePath],
        .error ("Template file " ++ absoluteTemplatePath ++ " does not exist\n"))
    else
      match readFile w absoluteTemplatePath with
      | .error err =>
        ([.getenv templatesFolderEnv, .fileExists absoluteTemplatePath,
          .readFile absoluteTemplatePath], .error (err ++ "\n"))
      | .ok data =>
        ([.getenv templatesFolderEnv, .fileExists absoluteTemplatePath,
          .readFile absoluteTemplatePath], .ok data)

/-- The files after the writer has delivered `written` to the file created
at `path`; nothing changes when the file could not be created. -/
def storeOutput (files : String → FileNode) (path : String) (b : Writer) : String → FileNode :=
  if b.valid then fun p => if p = path then .regular b.written else files p
  else files

/-- The function `run(cli)`.  The configuration is loaded, the template text
is looked up, the contributions are scanned, the output file is created and
the template is filled into it through a buffered writer.  `os.Exit` ends
the process at once, so the deferred `f.Close()` and the final `Flush` only
take place on the path that returns.  A failure of `os.Create` is reported
and the run goes on with a nil file.  The files a scan may write are not
tracked. -/
def run (cli : Context) (w : World) : Outcome :=
  let configPath := cli.config
  let loaded := loadConfig w configPath
  match loaded.2.2 with
  | some err =>
    { events := loaded.1 ++ [.stderr (err ++ "\n"), .exit 1], files := w.files, status := 1 }
  | none =>
    let configuration := loaded.2.1
    let templateName := cli.template
    let tpl := templateData w templateName
    match tpl.2 with
    | .error msg =>
      { events := loaded.1 ++ tpl.1 ++ [.stderr msg, .exit 1], files := w.files, status := 1 }
    | .ok templateData =>
      let contributions := w.scanContributions configuration
      let outputPath := cli.output
      let created : List Event × Writer :=
        match w.createError outputPath with
        | some err => ([.create outputPath, .stderr (err ++ "\n")], newWriter false)
        | none => ([.create outputPath], newWriter true)
      let filled := fillTemplate w contributions templateData created.2
      let before := loaded.1 ++ tpl.1 ++ [.scanContributions configuration] ++ created.1
      match filled.exit with
      | some code =>
        { events := before ++ filled.events,
          files := storeOutput w.files outputPath filled.writer, status := code }
      | none =>
        let flushed := filled.writer.flush
        { events := before ++ filled.events
            ++ [.printInfo ("\nReport saved in: " ++ outputPath)],
          files := storeOutput w.files outputPath flushed.1, status := 0 }

/-- The configuration `cmdExconf` builds. -/
def exampleConfiguration : Configuration :=
  { Emails := .mk ["jubalh@openmailbox.org", "g.bluehut@gmail.com"],
    Projects := .mk [
      { Name := "nudoku", Description := "Ncurses sudoku game",
        Gitrepos := .mk ["https://github.com/jubalh/nudoku"] },
      { Name := "profanity", Description := "Ncurses based XMPP client",
        URL := "http://profanity.im/", Gitrepos := .mk ["https://github.com/boothj5/profanity"] },
      { Name := "Funtoo", Description := "Linux distribution", URL := "http://funtoo.org/",
        Gitrepos := .mk ["https://github.com/funtoo/ego", "https://github.com/funtoo/metro"],
        MediaWikis := .mk [{ BaseUrl := "http://funtoo.org", User := "jubalh" }] },
      { Name := "openSUSE", Description := "Linux distribution", URL := "http://opensuse.org/",
        Obs := .mk [{ Apiurl := "https://api.opensuse.org", Repo := "utilities/vifm" }] }] }

/-- The function `cmdExconf(c)`: a marshalling error is reported and the (then empty)
text is printed all the same; `fmt.Println` adds the line break. -/
def cmdExconf (_c : Context) : List Event :=
  let configuration := exampleConfiguration
  match marshalIndent configuration with
  | .error err => [.stderr (err ++ "\n"), .stdout "\n"]
  | .ok text => [.stdout (text ++ "\n")]

/-! ## The scanner, from the specification -/

/-- Modelled from the spec: the state of the sources a scan queries, absent
from `gontributions.go`.  For a repository location the author identity of
every commit in its history, for a wiki account the number of edits on every
page of its contribution listing, for a build-service package the identity
behind every activity event; `none` is a source that cannot be reached or
read. -/
structure Backend where
  gitLog : String → Option (List String)
  wikiPages : MediaWiki → Option (List Nat)
  obsEvents : OpenBuildService → Option (List String)

/-- Modelled from the spec: the repository-log adapter of section 4.1, absent
from `gontributions.go`: the number of commits whose author is exactly one
of the identities; an unreachable repository yields 0 and a warning naming
it. -/
def gitAdapter (b : Backend) (emails : List String) (repo : String) : Nat × List String :=
  match b.gitLog repo with
  | none => (0, ["repository " ++ repo])
  | some authors => (authors.countP (fun a => decide (a ∈ emails)), [])

/-- Modelled from the spec: the wiki adapter of section 4.2, absent from
`gontributions.go`: the edits of the configured user summed over all pages;
a failure yields 0 and a warning. -/
def wikiAdapter (b : Backend) (m : MediaWiki) : Nat × List String :=
  match b.wikiPages m with
  | none => (0, ["wiki " ++ m.BaseUrl])
  | some pages => (pages.sum, [])

/-- Modelled from the spec: the build-service adapter of section 4.3, absent
from `gontributions.go`: the number of activity events attributed to one of
the identities; a failure yields 0 and a warning. -/
def obsAdapter (b : Backend) (emails : List String) (o : OpenBuildService) : Nat × List String :=
  match b.obsEvents o with
  | none => (0, ["build service " ++ o.Apiurl ++ " " ++ o.Repo])
  | some ids => (ids.countP (fun a => decide (a ∈ emails)), [])

/-- Modelled from the spec: the summation of section 4.4, absent from
`gontributions.go`: the counts of the adapter results are added up and their
warnings collected. -/
def sumResults (rs : List (Nat × List String)) : Nat × List String :=
  rs.foldl (fun acc r => (acc.1 + r.1, acc.2 ++ r.2)) (0, [])

/-- Modelled from the spec: the project aggregator of section 4.4, absent
from `gontributions.go`: one adapter call per attached source instance, the
counts summed into one total, the descriptive fields copied. -/
def aggregate (b : Backend) (emails : List String) (p : Project) : Contribution × List String :=
  let r := sumResults (p.Gitrepos.elems.map (gitAdapter b emails)
    ++ p.MediaWikis.elems.map (wikiAdapter b)
    ++ p.Obs.elems.map (obsAdapter b emails))
  ({ Name := p.Name, Description := p.Description, URL := p.URL, Count := r.1 }, r.2)

/-- Modelled from the spec: the entry point of section 6, absent from
`gontributions.go`, `scan(Configuration)`: the projects are gone through in
order, each adds its Contribution and its warnings. -/
def scan (b : Backend) (c : Configuration) : List Contribution × List String :=
  c.Projects.elems.foldl
    (fun acc p =>
      let r := aggregate b c.Emails.elems p
      (acc.1 ++ [r.1], acc.2 ++ r.2))
    ([], [])

/-- Modelled from the spec: `gontrib.ScanContributions`, absent from
`gontributions.go`, with the result the call in `run` fixes: the call binds
one value, `contributions`, and passes it to the `[]gontrib.Contribution`
parameter of `fillTemplate`; it is the Contribution sequence of the scan. -/
def ScanContributions (b : Backend) (c : Configuration) : List Contribution :=
  (scan b c).1

/-! ## Concrete worlds -/

/-- Sources in which each repository has three commits by the first example
identity and one by somebody else. -/
def backendBusy : Backend :=
  { gitLog := fun _ => some ["jubalh@openmailbox.org", "x@y.z", "jubalh@openmailbox.org",
      "jubalh@openmailbox.org"],
    wikiPages := fun _ => some [5, 5, 2],
    obsEvents := fun _ => none }

/-- A world with one configuration file and one bundled template; the
template engine accepts every text but `"bad"` and writes one chunk per
contribution. -/
def demoWorld (configText : String) (templatesPath : String) : World :=
  { files := fun p =>
      if p = "gontrib.json" then .regular configText
      else if p = "/t/default.html" then .regular "user template"
      else if p = "/t/dir.html" then .unreadable
      else .absent,
    getenv := fun n => if n = "GONTRIB_TEMPLATES_PTH" then templatesPath else "",
    asset := fun n =>
      if n = "templates/default.html" then .ok "bundled template"
      else .error ("Asset " ++ n ++ " not found"),
    fileExists := fun p => p = "/t/default.html" ∨ p = "/t/dir.html",
    createError := fun p => if p = "" then some "open : no such file or directory" else none,
    scanContributions := ScanContributions backendBusy,
    parseTemplate := fun t => if t = "bad" then some "template: unexpected EOF" else none,
    executeTemplate := fun t d => (t :: d.map (fun c => c.Name), none) }

/-- A small well-formed configuration file. -/
def goodConfigText : String :=
  "\x7b\"Emails\": [\"jubalh@openmailbox.org\"], \"Projects\": [\x7b\"Name\": \"p\", \"Gitrepos\": [\"r1\", \"r2\"]\x7d, \x7b\"Name\": \"q\"\x7d]\x7d"

/-- A configuration file whose decoding fails on `Projects` after `Emails`
has been stored. -/
def halfConfigText : String :=
  "\x7b\"Emails\": [\"a@b.c\"], \"Projects\": 3\x7d"

/-! ## Notions used in the statements -/

/-- The fuel that is enough for a mode and an input length. -/
def fuelNeeded : Mode → Nat → Nat
  | .value, n => 2 * n + 1
  | .items _, n => 2 * n + 2
  | .members _, n => 2 * n + 2


/-- The events of `run` up to the call of `fillTemplate`. -/
def eventsBeforeFill (cli : Context) (w : World) : List Event :=
  [.openFile cli.config] ++ (templateData w cli.template).1
    ++ [.scanContributions (loadConfig w cli.config).2.1]
    ++ (match w.createError cli.output with
        | some err => [.create cli.output, .stderr (err ++ "\n")]
        | none => [.create cli.output])

/-- The writer `run` hands to `fillTemplate`. -/
def outputWriter (cli : Context) (w : World) : Writer :=
  newWriter (w.createError cli.output).isNone

/-- The template cannot be obtained: the bundled asset does not exist when
`GONTRIB_TEMPLATES_PTH` is empty; when it is set, `util.FileExists` denies
the file, or the file does not exist, or it cannot be read. -/
def templateUnavailable (w : World) (name : String) : Prop :=
  (w.getenv templatesFolderEnv = ""
      ∧ ∃ e, w.asset (filepathJoin templateFolderName name) = .error e)
  ∨ (w.getenv templatesFolderEnv ≠ ""
      ∧ (w.fileExists (filepathJoin (w.getenv templatesFolderEnv) name) = false
          ∨ w.files (filepathJoin (w.getenv templatesFolderEnv) name) = .absent
          ∨ ∃ e, readFile w (filepathJoin (w.getenv templatesFolderEnv) name) = .error e))

/-- Whether an event is the creation of a file. -/
def Event.isCreate : Event → Prop
  | .create _ => True
  | _ => False

/-- What a list of events wrote to standard output. -/
def stdoutOf : List Event → String
  | [] => ""
  | .stdout text :: es => text ++ stdoutOf es
  | _ :: es => stdoutOf es

/-- The keys of a JSON object, in document order; no keys for other values. -/
def Json.keys : Json → List String
  | .obj members => members.map Prod.fst
  | _ => []

/-- The value of the first member of a JSON object with the given key. -/
def Json.member (key : String) : Json → Option Json
  | .obj members => (members.find? (fun m => m.1 = key)).map Prod.snd
  | _ => none

/-- The items of a JSON array; no items for other values. -/
def Json.items : Json → List Json
  | .arr items => items
  | _ => []

/-- The descriptive fields of a project, which a Contribution copies. -/
def Project.descriptive (p : Project) : String × String × String :=
  (p.Name, p.Description, p.URL)

/-- The descriptive fields of a Contribution. -/
def Contribution.descriptive (r : Contribution) : String × String × String :=
  (r.Name, r.Description, r.URL)

/-! ## The fuel of the JSON reader is enough -/

theorem skipSpace_length (cs : List Char) : (skipSpace cs).length ≤ cs.length := by
  induction cs with
  | nil => simp [skipSpace]
  | cons c cs ih =>
    unfold skipSpace
    split
    · simp only [List.length_cons]
      omega
    · exact Nat.le_refl _

theorem span_snd_length {α : Type} (p : α → Bool) (l : List α) :
    (l.span p).2.length ≤ l.length := by
  rw [List.span_eq_take_drop]
  simp only
  induction l with
  | nil => simp
  | cons x l ih =>
    rw [List.dropWhile_cons]
    split
    · simp only [List.length_cons]
      omega
    · exact Nat.le_refl _

theorem scanString_length_aux : ∀ (n : Nat) (cs : List Char), cs.length ≤ n →
    ∀ (pending : Option Nat) (acc : List Char) (s : String) (r : List Char),
    scanString pending acc cs = .ok (s, r) → r.length < cs.length := by
  intro n
  induction n with
  | zero =>
    intro cs hn pending acc s r hs
    cases cs with
    | nil => simp [scanString] at hs
    | cons c cs => simp at hn
  | succ n ih =>
    intro cs hn pending acc s r hs
    cases cs with
    | nil => simp [scanString] at hs
    | cons c cs =>
      simp only [List.length_cons, Nat.add_le_add_iff_right] at hn
      unfold scanString at hs
      split at hs
      · simp only [Except.ok.injEq, Prod.mk.injEq] at hs
        rw [← hs.2]
        simp
      · split at hs
        · split at hs
          · cases hs
          · split at hs
            · split at hs
              · split at hs
                · cases hs
                · split at hs <;> (repeat' split at hs)
                  all_goals
                    have hlt := ih _ (by simp only [List.length_cons] at hn; omega) _ _ _ _ hs
                    simp only [List.length_cons] at hlt ⊢
                    omega
              · cases hs
            · split at hs
              · have := ih _ (by simp only [List.length_cons] at hn; omega) _ _ _ _ hs
                simp only [List.length_cons] at this ⊢
                omega
              · cases hs
        · split at hs
          · cases hs
          · have := ih _ hn _ _ _ _ hs
            simp only [List.length_cons] at this ⊢
            omega

theorem scanString_length (cs : List Char) (pending : Option Nat) (acc : List Char)
    (s : String) (r : List Char) (h : scanString pending acc cs = .ok (s, r)) :
    r.length < cs.length :=
  scanString_length_aux cs.length cs (Nat.le_refl _) pending acc s r h

theorem takeSign_length (signs cs : List Char) :
    (takeSign signs cs).2.length ≤ cs.length := by
  unfold takeSign
  split
  · simp
  · split <;> simp

theorem scanExponent_length (lit cs lit2 r : List Char)
    (h : scanExponent lit cs = .ok (lit2, r)) : r.length ≤ cs.length := by
  unfold scanExponent at h
  split at h
  · rename_i e rest
    split at h
    · have hsign := takeSign_length ['+', '-'] rest
      have hspan := span_snd_length Char.isDigit (takeSign ['+', '-'] rest).2
      generalize (takeSign ['+', '-'] rest).2.span Char.isDigit = sp at h hspan
      obtain ⟨ds, r2⟩ := sp
      cases ds with
      | nil => cases h
      | cons d ds =>
        simp only [Except.ok.injEq, Prod.mk.injEq] at h
        simp only at hspan
        rw [← h.2]
        simp only [List.length_cons]
        omega
    · simp only [Except.ok.injEq, Prod.mk.injEq] at h
      rw [← h.2]
  · simp only [Except.ok.injEq, Prod.mk.injEq] at h
    rw [← h.2]

theorem scanFraction_length (lit cs lit2 r : List Char)
    (h : scanFraction lit cs = .ok (lit2, r)) : r.length ≤ cs.length := by
  unfold scanFraction at h
  split at h
  · rename_i dot rest
    split at h
    · have hspan := span_snd_length Char.isDigit rest
      generalize rest.span Char.isDigit = sp at h hspan
      obtain ⟨ds, r2⟩ := sp
      cases ds with
      | nil => cases h
      | cons d ds =>
        simp only at h hspan
        have := scanExponent_length _ _ _ _ h
        simp only [List.length_cons]
        omega
    · exact scanExponent_length _ _ _ _ h
  · simp only [Except.ok.injEq, Prod.mk.injEq] at h
    rw [← h.2]

theorem scanNumber_length (cs lit r : List Char)
    (h : scanNumber cs = .ok (lit, r)) : r.length ≤ cs.length := by
  unfold scanNumber at h
  have hsign := takeSign_length ['-'] cs
  split at h
  · cases h
  · rename_i d r2 heq
    rw [heq] at hsign
    simp only [List.length_cons] at hsign
    split at h
    · have := scanFraction_length _ _ _ _ h
      omega
    · split at h
      · have hspan := span_snd_length Char.isDigit r2
        have := scanFraction_length _ _ _ _ h
        omega
      · cases h

theorem scanScalar_length (c : Char) (rest : List Char) (v : Json) (r : List Char)
    (h : scanScalar c rest = .ok (v, r)) : r.length ≤ rest.length + 1 := by
  unfold scanScalar at h
  split at h
  · split at h
    · rename_i s r2 heq
      have := scanString_length _ _ _ _ _ heq
      simp only [Except.ok.injEq, Prod.mk.injEq] at h
      rw [← h.2]
      omega
    · cases h
  · split at h
    · split at h
      · rename_i lit r2 heq
        have := scanNumber_length _ _ _ heq
        simp only [Except.ok.injEq, Prod.mk.injEq] at h
        rw [← h.2]
        simpa using this
      · cases h
    · repeat' split at h
      all_goals first
        | (simp only [Except.ok.injEq, Prod.mk.injEq] at h
           rw [← h.2]
           simp only [List.length_drop]
           omega)
        | cases h

/-- What `parse` leaves of its input is no longer than the input. -/
theorem parse_length : ∀ (fuel : Nat) (mode : Mode) (cs : List Char) (v : Json) (r : List Char),
    parse fuel mode cs = some (.ok (v, r)) → r.length ≤ cs.length := by
  intro fuel
  induction fuel with
  | zero =>
    intro mode cs v r h
    simp [parse] at h
  | succ fuel ih =>
    intro mode cs v r h
    have hsk := skipSpace_length cs
    cases mode with
    | value =>
      simp only [parse] at h
      split at h
      · cases h
      · rename_i c rest heq
        rw [heq] at hsk
        simp only [List.length_cons] at hsk
        have hsk2 := skipSpace_length rest
        split at h
        · split at h
          · cases h
          · rename_i c2 rest2 heq2
            rw [heq2] at hsk2
            simp only [List.length_cons] at hsk2
            split at h
            · simp only [Option.some.injEq, Except.ok.injEq, Prod.mk.injEq] at h
              rw [← h.2]
              omega
            · have := ih _ _ _ _ h
              simp only [List.length_cons] at this
              omega
        · split at h
          · split at h
            · cases h
            · rename_i c2 rest2 heq2
              rw [heq2] at hsk2
              simp only [List.length_cons] at hsk2
              split at h
              · simp only [Option.some.injEq, Except.ok.injEq, Prod.mk.injEq] at h
                rw [← h.2]
                omega
              · have := ih _ _ _ _ h
                simp only [List.length_cons] at this
                omega
          · simp only [Option.some.injEq] at h
            have := scanScalar_length _ _ _ _ h
            omega
    | items acc =>
      simp only [parse] at h
      split at h
      · cases h
      · cases h
      · rename_i v1 rest heq
        have h1 := ih _ _ _ _ heq
        have hsk2 := skipSpace_length rest
        split at h
        · cases h
        · rename_i c rest2 heq2
          rw [heq2] at hsk2
          simp only [List.length_cons] at hsk2
          split at h
          · have := ih _ _ _ _ h
            omega
          · split at h
            · simp only [Option.some.injEq, Except.ok.injEq, Prod.mk.injEq] at h
              rw [← h.2]
              omega
            · cases h
    | members acc =>
      simp only [parse] at h
      split at h
      · cases h
      · rename_i q rest heq
        rw [heq] at hsk
        simp only [List.length_cons] at hsk
        split at h
        · split at h
          · cases h
          · rename_i key rest2 heqs
            have hs := scanString_length _ _ _ _ _ heqs
            have hsk2 := skipSpace_length rest2
            split at h
            · cases h
            · rename_i colon rest3 heq3
              rw [heq3] at hsk2
              simp only [List.length_cons] at hsk2
              split at h
              · split at h
                · cases h
                · cases h
                · rename_i v1 rest4 heq4
                  have h4 := ih _ _ _ _ heq4
                  have hsk4 := skipSpace_length rest4
                  split at h
                  · cases h
                  · rename_i c rest5 heq5
                    rw [heq5] at hsk4
                    simp only [List.length_cons] at hsk4
                    split at h
                    · have := ih _ _ _ _ h
                      omega
                    · split at h
                      · simp only [Option.some.injEq, Except.ok.injEq, Prod.mk.injEq] at h
                        rw [← h.2]
                        omega
                      · cases h
              · cases h
        · cases h

/-- With the fuel `fuelNeeded` asks for, `parse` does not run out. -/
theorem parse_fuel_enough : ∀ (fuel : Nat) (mode : Mode) (cs : List Char),
    fuelNeeded mode cs.length ≤ fuel → parse fuel mode cs ≠ none := by
  intro fuel
  induction fuel with
  | zero =>
    intro mode cs h
    cases mode <;> simp [fuelNeeded] at h
  | succ fuel ih =>
    intro mode cs h
    have hsk := skipSpace_length cs
    cases mode with
    | value =>
      simp only [fuelNeeded] at h
      simp only [parse]
      split
      · simp
      · rename_i c rest heq
        rw [heq] at hsk
        simp only [List.length_cons] at hsk
        have hsk2 := skipSpace_length rest
        split
        · split
          · simp
          · rename_i c2 rest2 heq2
            rw [heq2] at hsk2
            simp only [List.length_cons] at hsk2
            split
            · simp
            · apply ih
              simp only [fuelNeeded, List.length_cons]
              omega
        · split
          · split
            · simp
            · rename_i c2 rest2 heq2
              rw [heq2] at hsk2
              simp only [List.length_cons] at hsk2
              split
              · simp
              · apply ih
                simp only [fuelNeeded, List.length_cons]
                omega
          · simp
    | items acc =>
      simp only [fuelNeeded] at h
      simp only [parse]
      have hv := ih .value cs (by simp only [fuelNeeded]; omega)
      split
      · rename_i heq
        exact absurd heq hv
      · simp
      · rename_i v1 rest heq
        have h1 := parse_length _ _ _ _ _ heq
        have hsk2 := skipSpace_length rest
        split
        · simp
        · rename_i c rest2 heq2
          rw [heq2] at hsk2
          simp only [List.length_cons] at hsk2
          split
          · apply ih
            simp only [fuelNeeded]
            omega
          · split <;> simp
    | members acc =>
      simp only [fuelNeeded] at h
      simp only [parse]
      split
      · simp
      · rename_i q rest heq
        rw [heq] at hsk
        simp only [List.length_cons] at hsk
        split
        · split
          · simp
          · rename_i key rest2 heqs
            have hs := scanString_length _ _ _ _ _ heqs
            have hsk2 := skipSpace_length rest2
            split
            · simp
            · rename_i colon rest3 heq3
              rw [heq3] at hsk2
              simp only [List.length_cons] at hsk2
              split
              · have hv := ih .value rest3 (by simp only [fuelNeeded]; omega)
                split
                · rename_i heq4
                  exact absurd heq4 hv
                · simp
                · rename_i v1 rest4 heq4
                  have h4 := parse_length _ _ _ _ _ heq4
                  have hsk4 := skipSpace_length rest4
                  split
                  · simp
                  · rename_i c rest5 heq5
                    rw [heq5] at hsk4
                    simp only [List.length_cons] at hsk4
                    split
                    · apply ih
                      simp only [fuelNeeded]
                      omega
                    · split <;> simp
              · simp
        · simp

/-- The fuel `readValue` gives to `parse` never runs out. -/
theorem readValue_fuel (cs : List Char) :
    parse (2 * cs.length + 2) .value (skipSpace cs) ≠ none := by
  apply parse_fuel_enough
  have := skipSpace_length cs
  simp only [fuelNeeded]
  omega

/-! ## Lemmas on the buffered writer -/

theorem string_eq_empty_of_length (s : String) (h : s.length = 0) : s = "" := by
  apply String.ext
  exact List.length_eq_zero.mp h

theorem string_take_append_drop (p : String) (n : Nat) : p.take n ++ p.drop n = p := by
  apply String.ext
  simp

/-- A writer over a created file that has not failed accepts a flush: the
buffered text reaches the file and the buffer is empty. -/
theorem flush_valid (b : Writer) (hv : b.valid = true) (he : b.err = none) :
    b.flush.2 = none ∧ b.flush.1.valid = true ∧ b.flush.1.err = none
      ∧ b.flush.1.written = b.written ++ b.buf ∧ b.flush.1.buf = "" := by
  obtain ⟨valid, written, buf, err⟩ := b
  simp only at hv he
  subst hv he
  simp only [Writer.flush]
  split
  · rename_i h0
    have hb := string_eq_empty_of_length _ h0
    subst hb
    simp
  · simp

/-- A writer over a created file that has not failed accepts every write,
and what it holds (delivered or buffered) grows by the text written. -/
theorem write_valid (b : Writer) (p : String) (hv : b.valid = true) (he : b.err = none) :
    (b.write p).2 = none ∧ (b.write p).1.valid = true ∧ (b.write p).1.err = none
      ∧ (b.write p).1.written ++ (b.write p).1.buf = b.written ++ b.buf ++ p := by
  obtain ⟨valid, written, buf, err⟩ := b
  simp only at hv he
  subst hv he
  simp only [Writer.write]
  split
  · simp [String.append_assoc]
  · split
    · rename_i h0
      have hb := string_eq_empty_of_length _ h0
      subst hb
      simp
    · obtain ⟨hf1, hf2, hf3, hf4, hf5⟩ := flush_valid
        (Writer.mk true written (buf ++ p.take (defaultBufSize - buf.length)) none) rfl rfl
      generalize (Writer.mk true written (buf ++ p.take (defaultBufSize - buf.length)) none).flush
        = fl at hf1 hf2 hf3 hf4 hf5
      obtain ⟨b1, e1⟩ := fl
      simp only at hf1 hf2 hf3 hf4 hf5
      subst hf1
      simp only
      have hcat : b1.written ++ p.drop (defaultBufSize - buf.length)
          = written ++ buf ++ p := by
        rw [hf4]
        simp only [String.append_assoc]
        rw [string_take_append_drop]
      split
      · refine ⟨rfl, hf2, hf3, ?_⟩
        simpa using hcat
      · refine ⟨rfl, hf2, hf3, ?_⟩
        simp only
        rw [hf5]
        simpa using hcat

theorem string_join_cons (p : String) (ps : List String) :
    String.join (p :: ps) = p ++ String.join ps := by
  apply String.ext
  simp

/-- A writer over a created file that has not failed accepts all the chunks
of a template execution. -/
theorem writeChunks_valid (ps : List String) : ∀ (b : Writer), b.valid = true → b.err = none →
    (writeChunks b ps).2 = none ∧ (writeChunks b ps).1.valid = true
      ∧ (writeChunks b ps).1.err = none
      ∧ (writeChunks b ps).1.written ++ (writeChunks b ps).1.buf
          = b.written ++ b.buf ++ String.join ps := by
  induction ps with
  | nil =>
    intro b hv he
    refine ⟨rfl, hv, he, ?_⟩
    simp [writeChunks, String.join]
  | cons p ps ih =>
    intro b hv he
    obtain ⟨hw1, hw2, hw3, hw4⟩ := write_valid b p hv he
    unfold writeChunks
    generalize hwr : b.write p = wr at hw1 hw2 hw3 hw4
    obtain ⟨b1, e1⟩ := wr
    simp only at hw1 hw2 hw3 hw4
    subst hw1
    simp only
    obtain ⟨h1, h2, h3, h4⟩ := ih b1 hw2 hw3
    refine ⟨h1, h2, h3, ?_⟩
    rw [h4, hw4, string_join_cons]
    simp [String.append_assoc]

/-! ## Shared lemmas on `run` -/

theorem loadConfig_events (w : World) (filename : String) :
    (loadConfig w filename).1 = [.openFile filename] := by
  unfold loadConfig
  split <;> rfl

/-- The run that stops at the configuration. -/
theorem run_of_load_error (cli : Context) (w : World) (err : String)
    (h : (loadConfig w cli.config).2.2 = some err) :
    run cli w =
      { events := [.openFile cli.config, .stderr (err ++ "\n"), .exit 1],
        files := w.files, status := 1 } := by
  unfold run
  simp only [h, loadConfig_events]
  rfl

/-- The run that stops at the template. -/
theorem run_of_template_error (cli : Context) (w : World) (msg : String)
    (hc : (loadConfig w cli.config).2.2 = none)
    (ht : (templateData w cli.template).2 = .error msg) :
    run cli w =
      { events := [.openFile cli.config] ++ (templateData w cli.template).1
          ++ [.stderr msg, .exit 1],
        files := w.files, status := 1 } := by
  unfold run
  simp only [hc, ht, loadConfig_events]

/-- The events of the run that gets past configuration and template. -/
theorem run_events_of_loaded (cli : Context) (w : World) (tpl : String)
    (hc : (loadConfig w cli.config).2.2 = none)
    (ht : (templateData w cli.template).2 = .ok tpl) :
    (run cli w).events =
      eventsBeforeFill cli w
        ++ (fillTemplate w (w.scanContributions (loadConfig w cli.config).2.1) tpl
              (outputWriter cli w)).events
        ++ (match (fillTemplate w (w.scanContributions (loadConfig w cli.config).2.1) tpl
              (outputWriter cli w)).exit with
            | some _ => []
            | none => [.printInfo ("\nReport saved in: " ++ cli.output)]) := by
  unfold run eventsBeforeFill outputWriter
  simp only [hc, ht, loadConfig_events]
  cases hce : w.createError cli.output <;> simp only [Option.isNone] <;> split <;> simp_all

/-- The events of `fillTemplate` are a parse, possibly an execution, and
possibly an error report with the exit. -/
theorem fillTemplate_events (w : World) (d : List Contribution) (tpl : String) (b : Writer) :
    (∃ err, w.parseTemplate tpl = some err ∧
        (fillTemplate w d tpl b).events = [.parseTemplate tpl, .stderr (err ++ "\n"), .exit 1])
    ∨ (w.parseTemplate tpl = none ∧
        ((fillTemplate w d tpl b).events = [.parseTemplate tpl, .executeTemplate d]
          ∨ ∃ err, (fillTemplate w d tpl b).events
              = [.parseTemplate tpl, .executeTemplate d, .stderr (err ++ "\n"), .exit 1])) := by
  unfold fillTemplate
  cases hp : w.parseTemplate tpl with
  | some err => exact Or.inl ⟨err, rfl, rfl⟩
  | none =>
    refine Or.inr ⟨rfl, ?_⟩
    simp only
    split
    · rename_i err _
      exact Or.inr ⟨err, rfl⟩
    · exact Or.inl rfl

/-- The events of the template lookup are lookups only. -/
theorem templateData_events (w : World) (name : String) :
    ∀ e ∈ (templateData w name).1,
      e = .getenv templatesFolderEnv ∨ (∃ a, e = .asset a) ∨ (∃ p, e = .fileExists p)
        ∨ ∃ p, e = .readFile p := by
  intro e he
  unfold templateData at he
  simp only at he
  split at he
  · split at he <;> simp at he <;> rcases he with rfl | rfl <;> simp
  · split at he
    · simp at he
      rcases he with rfl | rfl <;> simp
    · split at he <;> simp at he <;> rcases he with rfl | rfl | rfl <;> simp

theorem readFile_absent (w : World) (path : String) (h : w.files path = .absent) :
    ∃ e, readFile w path = .error e := by
  unfold readFile openFile
  rw [h]
  exact ⟨_, rfl⟩

theorem templateData_error_of_unavailable (w : World) (name : String)
    (h : templateUnavailable w name) : ∃ msg, (templateData w name).2 = .error msg := by
  unfold templateData
  rcases h with ⟨henv, e, he⟩ | ⟨henv, h⟩
  · simp only [henv, if_true, he]
    exact ⟨_, rfl⟩
  · simp only [henv, if_false]
    cases hx : w.fileExists (filepathJoin (w.getenv templatesFolderEnv) name) with
    | false => exact ⟨_, rfl⟩
    | true =>
      have hr : ∃ e, readFile w (filepathJoin (w.getenv templatesFolderEnv) name) = .error e := by
        rcases h with h | h | h
        · rw [hx] at h; cases h
        · exact readFile_absent w _ h
        · exact h
      obtain ⟨e, he⟩ := hr
      simp only [he]
      exact ⟨_, rfl⟩

/-- An element that is the first of its kind in a list splits the list in
one way only. -/
theorem split_at_first {α : Type} (P : α → Prop) (a b : α) (hb : P b) :
    ∀ (pre l1 post r1 : List α), (∀ e ∈ l1, ¬ P e) → (∀ e ∈ r1, ¬ P e) →
      pre ++ b :: post = l1 ++ a :: r1 → pre = l1 ∧ b = a ∧ post = r1 := by
  intro pre
  induction pre with
  | nil =>
    intro l1 post r1 hl _ h
    cases l1 with
    | nil =>
      simp only [List.nil_append, List.cons.injEq] at h
      exact ⟨rfl, h.1, h.2⟩
    | cons x l1 =>
      simp only [List.nil_append, List.cons_append, List.cons.injEq] at h
      exact absurd (h.1 ▸ hb) (hl x (List.mem_cons_self _ _))
  | cons y pre ih =>
    intro l1 post r1 hl hr h
    cases l1 with
    | nil =>
      simp only [List.nil_append, List.cons_append, List.cons.injEq] at h
      have : b ∈ r1 := by rw [← h.2]; simp
      exact absurd hb (hr b this)
    | cons x l1 =>
      simp only [List.cons_append, List.cons.injEq] at h
      obtain ⟨hp, hb2, hpost⟩ := ih l1 post r1
        (fun e he => hl e (List.mem_cons_of_mem _ he)) hr h.2
      exact ⟨by rw [h.1, hp], hb2, hpost⟩

theorem fillTemplate_no_create (w : World) (d : List Contribution) (tpl : String) (b : Writer) :
    ∀ e ∈ (fillTemplate w d tpl b).events, ¬ e.isCreate := by
  intro e he
  rcases fillTemplate_events w d tpl b with ⟨err, _, h⟩ | ⟨_, h | ⟨err, h⟩⟩ <;>
    (rw [h] at he; simp at he; rcases he with rfl | rfl | rfl | rfl <;> simp [Event.isCreate])

theorem templateData_no_create (w : World) (name : String) :
    ∀ e ∈ (templateData w name).1, ¬ e.isCreate := by
  intro e he
  rcases templateData_events w name e he with rfl | ⟨a, rfl⟩ | ⟨p, rfl⟩ | ⟨p, rfl⟩ <;>
    simp [Event.isCreate]

/-! ## The claims -/

/-- C1: whenever `loadConfig` returns an error for the `--config` path (the
file cannot be opened, cannot be read, or its content fails to decode, also
after some fields were stored), `run` writes the error and a line break to
stderr and ends the process with exit status 1; `ScanContributions` is never
invoked and nothing else happens. -/
theorem run_config_error_exits_before_scan (cli : Context) (w : World) (err : String)
    (h : (loadConfig w cli.config).2.2 = some err) :
    (run cli w).status = 1
      ∧ (run cli w).events = [.openFile cli.config, .stderr (err ++ "\n"), .exit 1]
      ∧ ∀ c, Event.scanContributions c ∉ (run cli w).events := by
  rw [run_of_load_error cli w err h]
  refine ⟨rfl, rfl, ?_⟩
  intro c hc
  simp at hc

/-- Witness of C1: a missing file, a file with a syntax error, and a file
whose decoding fails after `Emails` has been stored. -/
theorem run_config_error_exits_before_scan_witness :
    ((run { config := "nope" } (demoWorld goodConfigText "")).status = 1
      ∧ (run { config := "nope" } (demoWorld goodConfigText "")).events
          = [.openFile "nope", .stderr ("open nope: no such file or directory" ++ "\n"), .exit 1]
      ∧ ∀ c, Event.scanContributions c
          ∉ (run { config := "nope" } (demoWorld goodConfigText "")).events)
    ∧ ((loadConfig (demoWorld halfConfigText "") "gontrib.json").2.1.Emails = .mk ["a@b.c"]
      ∧ (run {} (demoWorld halfConfigText "")).status = 1
      ∧ (run {} (demoWorld halfConfigText "")).events
          = [.openFile "gontrib.json",
             .stderr ("json: cannot unmarshal number into Go value of type []gontrib.Project"
               ++ "\n"),
             .exit 1]
      ∧ ∀ c, Event.scanContributions c ∉ (run {} (demoWorld halfConfigText "")).events) :=
  ⟨run_config_error_exits_before_scan { config := "nope" } (demoWorld goodConfigText "") _
      (by decide),
   by decide,
   run_config_error_exits_before_scan {} (demoWorld halfConfigText "") _ (by decide)⟩

/-- C7: when the template text fails to parse, `fillTemplate` leaves the
writer as it was, writes the error to stderr and ends the process with exit
status 1, whatever the contributions; and in every call the template is
executed only if the parse succeeded. -/
theorem fillTemplate_parse_error (w : World) (contributions : List Contribution)
    (tempContent : String) (writer : Writer) :
    (∀ err, w.parseTemplate tempContent = some err →
        fillTemplate w contributions tempContent writer =
          { events := [.parseTemplate tempContent, .stderr (err ++ "\n"), .exit 1],
            writer := writer, exit := some 1 })
      ∧ (∀ d, Event.executeTemplate d ∈ (fillTemplate w contributions tempContent writer).events →
          w.parseTemplate tempContent = none) := by
  constructor
  · intro err h
    unfold fillTemplate
    simp only [h]
  · intro d hd
    rcases fillTemplate_events w contributions tempContent writer with ⟨err, _, h⟩ | ⟨hp, _⟩
    · rw [h] at hd
      simp at hd
    · exact hp

/-- Witness of C7: the template text `"bad"` and a writer that already
holds buffered text. -/
theorem fillTemplate_parse_error_witness :
    fillTemplate (demoWorld goodConfigText "") [{ Name := "p", Count := 6 }] "bad"
        { valid := true, buf := "kept" } =
      { events := [.parseTemplate "bad", .stderr ("template: unexpected EOF" ++ "\n"), .exit 1],
        writer := { valid := true, buf := "kept" }, exit := some 1 } :=
  (fillTemplate_parse_error (demoWorld goodConfigText "") [{ Name := "p", Count := 6 }] "bad"
    { valid := true, buf := "kept" }).1 "template: unexpected EOF" (by decide)

/-- C8: when the template cannot be obtained, `run` ends the process with
exit status 1 (the exit is its last event) and `ScanContributions` is never
invoked. -/
theorem run_template_unavailable_exits_before_scan (cli : Context) (w : World)
    (h : templateUnavailable w cli.template) :
    (run cli w).status = 1
      ∧ (run cli w).events.getLast? = some (.exit 1)
      ∧ ∀ c, Event.scanContributions c ∉ (run cli w).events := by
  cases hc : (loadConfig w cli.config).2.2 with
  | some err =>
    rw [run_of_load_error cli w err hc]
    refine ⟨rfl, rfl, ?_⟩
    intro c hm
    simp at hm
  | none =>
    obtain ⟨msg, ht⟩ := templateData_error_of_unavailable w cli.template h
    rw [run_of_template_error cli w msg hc ht]
    refine ⟨rfl, ?_, ?_⟩
    · have hsplit : [Event.openFile cli.config] ++ (templateData w cli.template).1
          ++ [Event.stderr msg, Event.exit 1]
          = ([Event.openFile cli.config] ++ (templateData w cli.template).1
              ++ [Event.stderr msg]) ++ [Event.exit 1] := by simp
      simp only [hsplit, List.getLast?_concat]
    · intro c hm
      simp only [List.mem_append, List.mem_cons, List.mem_singleton, List.not_mem_nil,
        or_false] at hm
      rcases hm with (hm | hm) | hm | hm
      · cases hm
      · rcases templateData_events w cli.template _ hm with h | ⟨a, h⟩ | ⟨p, h⟩ | ⟨p, h⟩ <;>
          cases h
      · cases hm
      · cases hm

/-- Witness of C8: a template name with no bundled asset, a user folder
without the file, and a user folder where the name is a directory. -/
theorem run_template_unavailable_exits_before_scan_witness :
    ((run { template := "x.html" } (demoWorld goodConfigText "")).status = 1
      ∧ (run { template := "x.html" } (demoWorld goodConfigText "")).events.getLast?
          = some (.exit 1)
      ∧ ∀ c, Event.scanContributions c
          ∉ (run { template := "x.html" } (demoWorld goodConfigText "")).events)
    ∧ ((run { template := "x.html" } (demoWorld goodConfigText "/t")).status = 1
      ∧ (run { template := "x.html" } (demoWorld goodConfigText "/t")).events.getLast?
          = some (.exit 1)
      ∧ ∀ c, Event.scanContributions c
          ∉ (run { template := "x.html" } (demoWorld goodConfigText "/t")).events)
    ∧ ((run { template := "dir.html" } (demoWorld goodConfigText "/t")).status = 1
      ∧ (run { template := "dir.html" } (demoWorld goodConfigText "/t")).events.getLast?
          = some (.exit 1)
      ∧ ∀ c, Event.scanContributions c
          ∉ (run { template := "dir.html" } (demoWorld goodConfigText "/t")).events) :=
  ⟨run_template_unavailable_exits_before_scan { template := "x.html" }
      (demoWorld goodConfigText "") (Or.inl ⟨by decide, _, rfl⟩),
   run_template_unavailable_exits_before_scan { template := "x.html" }
      (demoWorld goodConfigText "/t") (Or.inr ⟨by decide, Or.inl (by decide)⟩),
   run_template_unavailable_exits_before_scan { template := "dir.html" }
      (demoWorld goodConfigText "/t") (Or.inr ⟨by decide, Or.inr (Or.inr ⟨_, rfl⟩)⟩)⟩

/-- C9: `run` creates the file at the `--output` path only after the
configuration has loaded, the template text has been obtained and
`ScanContributions` has been called (everything before the creation is the
opening of the configuration, the template lookup and the scan), and it does
create it in every run that gets that far; a run in which the configuration
or the template fails to load creates no file and leaves all files as they
were. -/
theorem run_creates_output_after_scan (cli : Context) (w : World) :
    (∀ pre p post, (run cli w).events = pre ++ Event.create p :: post →
        p = cli.output
          ∧ (loadConfig w cli.config).2.2 = none
          ∧ (∃ tpl, (templateData w cli.template).2 = .ok tpl)
          ∧ pre = [.openFile cli.config] ++ (templateData w cli.template).1
              ++ [.scanContributions (loadConfig w cli.config).2.1])
      ∧ ((loadConfig w cli.config).2.2 = none →
          (∃ tpl, (templateData w cli.template).2 = .ok tpl) →
          Event.create cli.output ∈ (run cli w).events)
      ∧ (((loadConfig w cli.config).2.2 ≠ none
            ∨ ∃ msg, (templateData w cli.template).2 = .error msg) →
          (run cli w).files = w.files ∧ ∀ p, Event.create p ∉ (run cli w).events) := by
  cases hc : (loadConfig w cli.config).2.2 with
  | some err =>
    rw [run_of_load_error cli w err hc]
    refine ⟨?_, ?_, ?_⟩
    · intro pre p post h
      have hm : Event.create p ∈ pre ++ Event.create p :: post := by simp
      rw [← h] at hm
      simp at hm
    · intro h
      cases h
    · intro _
      refine ⟨rfl, ?_⟩
      intro p hm
      simp at hm
  | none =>
    cases ht : (templateData w cli.template).2 with
    | error msg =>
      have hno : ∀ p, Event.create p ∉ [Event.openFile cli.config]
          ++ (templateData w cli.template).1 ++ [Event.stderr msg, Event.exit 1] := by
        intro p hm
        simp only [List.mem_append, List.mem_cons, List.mem_singleton, List.not_mem_nil,
          or_false] at hm
        rcases hm with (hm | hm) | hm | hm
        · cases hm
        · exact templateData_no_create w cli.template _ hm trivial
        · cases hm
        · cases hm
      rw [run_of_template_error cli w msg hc ht]
      refine ⟨?_, ?_, ?_⟩
      · intro pre p post h
        have hm : Event.create p ∈ pre ++ Event.create p :: post := by simp
        rw [← h] at hm
        exact absurd hm (hno p)
      · intro _ h
        obtain ⟨tpl, h⟩ := h
        cases h
      · intro _
        exact ⟨rfl, hno⟩
    | ok tpl =>
      have hev := run_events_of_loaded cli w tpl hc ht
      have hshape : ∃ rest, (run cli w).events
          = ([Event.openFile cli.config] ++ (templateData w cli.template).1
              ++ [Event.scanContributions (loadConfig w cli.config).2.1])
            ++ Event.create cli.output :: rest ∧ ∀ e ∈ rest, ¬ e.isCreate := by
        rw [hev]
        unfold eventsBeforeFill
        cases hce : w.createError cli.output with
        | none =>
          refine ⟨_, by simp only [List.append_assoc, List.singleton_append, List.cons_append,
            List.nil_append]; rfl, ?_⟩
          intro e he
          simp only [List.mem_append] at he
          rcases he with he | he
          · exact fillTemplate_no_create _ _ _ _ e he
          · split at he
            · simp at he
            · simp at he
              subst he
              simp [Event.isCreate]
        | some err =>
          refine ⟨[Event.stderr (err ++ "\n")] ++ _ ++ _, by
            simp only [List.append_assoc, List.singleton_append, List.cons_append,
              List.nil_append]; rfl, ?_⟩
          intro e he
          simp only [List.mem_append, List.mem_singleton] at he
          rcases he with (he | he) | he
          · subst he
            simp [Event.isCreate]
          · exact fillTemplate_no_create _ _ _ _ e he
          · split at he
            · simp at he
            · simp at he
              subst he
              simp [Event.isCreate]
      obtain ⟨rest, hrun, hrest⟩ := hshape
      refine ⟨?_, ?_, ?_⟩
      · intro pre p post h
        rw [hrun] at h
        have hl : ∀ e ∈ [Event.openFile cli.config] ++ (templateData w cli.template).1
            ++ [Event.scanContributions (loadConfig w cli.config).2.1], ¬ e.isCreate := by
          intro e he
          simp only [List.mem_append, List.mem_singleton] at he
          rcases he with (he | he) | he
          · subst he
            simp [Event.isCreate]
          · exact templateData_no_create w cli.template e he
          · subst he
            simp [Event.isCreate]
        obtain ⟨hpre, hb, _⟩ := split_at_first Event.isCreate (Event.create cli.output)
          (Event.create p) trivial pre _ post rest hl hrest h.symm
        refine ⟨?_, rfl, ⟨tpl, rfl⟩, hpre⟩
        cases hb
        rfl
      · intro _ _
        rw [hrun]
        simp
      · intro h
        rcases h with h | ⟨msg, h⟩
        · exact absurd rfl h
        · cases h

/-- Witness of C9: in a run that succeeds the creation comes right after the
scan; a run with a missing configuration and a run with a missing template
leave the files alone. -/
theorem run_creates_output_after_scan_witness :
    ("output.html" = ({} : Context).output
        ∧ (loadConfig (demoWorld goodConfigText "") ({} : Context).config).2.2 = none
        ∧ (∃ tpl, (templateData (demoWorld goodConfigText "") ({} : Context).template).2
            = .ok tpl)
        ∧ [Event.openFile "gontrib.json", .getenv "GONTRIB_TEMPLATES_PTH",
            .asset "templates/default.html",
            .scanContributions (loadConfig (demoWorld goodConfigText "") "gontrib.json").2.1]
          = [.openFile ({} : Context).config]
              ++ (templateData (demoWorld goodConfigText "") ({} : Context).template).1
              ++ [.scanContributions
                    (loadConfig (demoWorld goodConfigText "") ({} : Context).config).2.1])
      ∧ ((run { config := "nope" } (demoWorld goodConfigText "")).files
            = (demoWorld goodConfigText "").files
          ∧ ∀ p, Event.create p ∉ (run { config := "nope" } (demoWorld goodConfigText "")).events)
      ∧ ((run { template := "x.html" } (demoWorld goodConfigText "")).files
            = (demoWorld goodConfigText "").files
          ∧ ∀ p, Event.create p
              ∉ (run { template := "x.html" } (demoWorld goodConfigText "")).events) :=
  ⟨(run_creates_output_after_scan {} (demoWorld goodConfigText "")).1
      [.openFile "gontrib.json", .getenv "GONTRIB_TEMPLATES_PTH",
        .asset "templates/default.html",
        .scanContributions (loadConfig (demoWorld goodConfigText "") "gontrib.json").2.1]
      "output.html"
      [.parseTemplate "bundled template",
        .executeTemplate [{ Name := "p", Count := 6 }, { Name := "q" }],
        .printInfo "\nReport saved in: output.html"]
      (by decide),
   (run_creates_output_after_scan { config := "nope" } (demoWorld goodConfigText "")).2.2
      (Or.inl (by decide)),
   (run_creates_output_after_scan { template := "x.html" } (demoWorld goodConfigText "")).2.2
      (Or.inr ⟨_, rfl⟩)⟩

theorem templateData_no_scan (w : World) (name : String) :
    ∀ c, Event.scanContributions c ∉ (templateData w name).1 := by
  intro c hm
  rcases templateData_events w name _ hm with h | ⟨a, h⟩ | ⟨p, h⟩ | ⟨p, h⟩ <;> cases h

theorem templateData_no_openFile (w : World) (name : String) :
    ∀ p, Event.openFile p ∉ (templateData w name).1 := by
  intro c hm
  rcases templateData_events w name _ hm with h | ⟨a, h⟩ | ⟨p, h⟩ | ⟨p, h⟩ <;> cases h

theorem templateData_no_execute (w : World) (name : String) :
    ∀ d, Event.executeTemplate d ∉ (templateData w name).1 := by
  intro c hm
  rcases templateData_events w name _ hm with h | ⟨a, h⟩ | ⟨p, h⟩ | ⟨p, h⟩ <;> cases h

/-- The writer and the exit of `fillTemplate` when the template parses: the
chunks of the execution on the given contributions go to the writer, and the
process ends with status 1 exactly when a write or the execution fails. -/
theorem fillTemplate_of_parsed (w : World) (d : List Contribution) (tpl : String) (b : Writer)
    (hp : w.parseTemplate tpl = none) :
    (fillTemplate w d tpl b).writer = (writeChunks b (w.executeTemplate tpl d).1).1
      ∧ (fillTemplate w d tpl b).exit
          = (match saveError (writeChunks b (w.executeTemplate tpl d).1).2
                (w.executeTemplate tpl d).2 with
              | some _ => some 1
              | none => none) := by
  unfold fillTemplate
  simp only [hp]
  split <;> rename_i h <;> simp [h]

/-- The files and the exit status of the run that gets past configuration and
template. -/
theorem run_outcome_of_loaded (cli : Context) (w : World) (tpl : String)
    (hc : (loadConfig w cli.config).2.2 = none)
    (ht : (templateData w cli.template).2 = .ok tpl) :
    (run cli w).files
        = storeOutput w.files cli.output
            (match (fillTemplate w (w.scanContributions (loadConfig w cli.config).2.1) tpl
                (outputWriter cli w)).exit with
              | some _ => (fillTemplate w (w.scanContributions (loadConfig w cli.config).2.1) tpl
                  (outputWriter cli w)).writer
              | none => (fillTemplate w (w.scanContributions (loadConfig w cli.config).2.1) tpl
                  (outputWriter cli w)).writer.flush.1)
      ∧ (run cli w).status
          = (match (fillTemplate w (w.scanContributions (loadConfig w cli.config).2.1) tpl
                (outputWriter cli w)).exit with
              | some code => code
              | none => 0) := by
  unfold run outputWriter
  simp only [hc, ht]
  cases hce : w.createError cli.output <;> simp only [Option.isNone] <;> split <;> simp_all

/-- C3: in every run in which the configuration `c` and the template text
load, the configuration file is opened once, `ScanContributions` is invoked
once and on `c` itself, `fillTemplate` is called on exactly the sequence that
call returned, and the data of every template execution is that sequence;
the execution takes place when the template parses.  What the run writes is
the rendering of that sequence and of nothing else: the writer over the
output file receives the chunks the template gives for
`ScanContributions(c)`, and when the file is created and neither a write nor
the execution fails, the run ends with status 0 and the output file holds
exactly these chunks, one after the other. -/
theorem run_renders_scan_of_loaded_config (cli : Context) (w : World) (c : Configuration)
    (tpl : String) (hc : (loadConfig w cli.config).2 = (c, none))
    (ht : (templateData w cli.template).2 = .ok tpl) :
    (run cli w).events.count (.openFile cli.config) = 1
      ∧ (run cli w).events.count (.scanContributions c) = 1
      ∧ (∀ c2, Event.scanContributions c2 ∈ (run cli w).events → c2 = c)
      ∧ (∃ pre post, (run cli w).events
          = pre ++ (fillTemplate w (w.scanContributions c) tpl
              (newWriter (w.createError cli.output).isNone)).events ++ post)
      ∧ (∀ d, Event.executeTemplate d ∈ (run cli w).events → d = w.scanContributions c)
      ∧ (w.parseTemplate tpl = none →
          Event.executeTemplate (w.scanContributions c) ∈ (run cli w).events)
      ∧ (w.parseTemplate tpl = none →
          (run cli w).files
            = storeOutput w.files cli.output
                (match saveError
                    (writeChunks (newWriter (w.createError cli.output).isNone)
                      (w.executeTemplate tpl (w.scanContributions c)).1).2
                    (w.executeTemplate tpl (w.scanContributions c)).2 with
                  | some _ =>
                    (writeChunks (newWriter (w.createError cli.output).isNone)
                      (w.executeTemplate tpl (w.scanContributions c)).1).1
                  | none =>
                    (writeChunks (newWriter (w.createError cli.output).isNone)
                      (w.executeTemplate tpl (w.scanContributions c)).1).1.flush.1))
      ∧ (w.parseTemplate tpl = none → w.createError cli.output = none →
          (w.executeTemplate tpl (w.scanContributions c)).2 = none →
          (run cli w).files cli.output
              = .regular (String.join (w.executeTemplate tpl (w.scanContributions c)).1)
            ∧ (run cli w).status = 0) := by
  have hc1 : (loadConfig w cli.config).2.1 = c := by rw [hc]
  have hc2 : (loadConfig w cli.config).2.2 = none := by rw [hc]
  have hev := run_events_of_loaded cli w tpl hc2 ht
  rw [hc1] at hev
  unfold eventsBeforeFill outputWriter at hev
  rw [hc1] at hev
  have hfill := fillTemplate_events w (w.scanContributions c) tpl
    (newWriter (w.createError cli.output).isNone)
  have htail : ∀ e ∈ (match (fillTemplate w (w.scanContributions c) tpl
        (newWriter (w.createError cli.output).isNone)).exit with
      | some _ => []
      | none => [Event.printInfo ("\nReport saved in: " ++ cli.output)]),
      e = Event.printInfo ("\nReport saved in: " ++ cli.output) := by
    intro e he
    split at he
    · cases he
    · simpa using he
  have hcreate : ∀ e ∈ (match w.createError cli.output with
      | some err => [Event.create cli.output, Event.stderr (err ++ "\n")]
      | none => [Event.create cli.output]),
      e = Event.create cli.output ∨ ∃ err, e = Event.stderr (err ++ "\n") := by
    intro e he
    split at he
    · simp at he
      rcases he with rfl | rfl
      · exact Or.inl rfl
      · exact Or.inr ⟨_, rfl⟩
    · simp at he
      exact Or.inl he
  have hfillmem : ∀ e ∈ (fillTemplate w (w.scanContributions c) tpl
      (newWriter (w.createError cli.output).isNone)).events,
      e = Event.parseTemplate tpl ∨ e = Event.executeTemplate (w.scanContributions c)
        ∨ (∃ err, e = Event.stderr (err ++ "\n")) ∨ e = Event.exit 1 := by
    intro e he
    rcases hfill with ⟨err, _, h⟩ | ⟨_, h | ⟨err, h⟩⟩
    · rw [h] at he
      simp at he
      rcases he with rfl | rfl | rfl
      · exact Or.inl rfl
      · exact Or.inr (Or.inr (Or.inl ⟨_, rfl⟩))
      · exact Or.inr (Or.inr (Or.inr rfl))
    · rw [h] at he
      simp at he
      rcases he with rfl | rfl
      · exact Or.inl rfl
      · exact Or.inr (Or.inl rfl)
    · rw [h] at he
      simp at he
      rcases he with rfl | rfl | rfl | rfl
      · exact Or.inl rfl
      · exact Or.inr (Or.inl rfl)
      · exact Or.inr (Or.inr (Or.inl ⟨_, rfl⟩))
      · exact Or.inr (Or.inr (Or.inr rfl))
  have hcount : ∀ (x : Event), (∃ p, x = .openFile p) ∨ (∃ c2, x = .scanContributions c2) →
      (run cli w).events.count x
        = ([Event.openFile cli.config] ++ [Event.scanContributions c]).count x := by
    intro x hx
    rw [hev]
    simp only [List.count_append]
    have h1 : (templateData w cli.template).1.count x = 0 := by
      rw [List.count_eq_zero]
      intro hm
      rcases hx with ⟨p, rfl⟩ | ⟨c2, rfl⟩
      · exact templateData_no_openFile _ _ _ hm
      · exact templateData_no_scan _ _ _ hm
    have h2 : (match w.createError cli.output with
        | some err => [Event.create cli.output, Event.stderr (err ++ "\n")]
        | none => [Event.create cli.output]).count x = 0 := by
      rw [List.count_eq_zero]
      intro hm
      rcases hcreate x hm with h | ⟨err, h⟩ <;> rcases hx with ⟨p, rfl⟩ | ⟨c2, rfl⟩ <;> cases h
    have h3 : (fillTemplate w (w.scanContributions c) tpl
        (newWriter (w.createError cli.output).isNone)).events.count x = 0 := by
      rw [List.count_eq_zero]
      intro hm
      rcases hfillmem x hm with h | h | ⟨err, h⟩ | h <;>
        rcases hx with ⟨p, rfl⟩ | ⟨c2, rfl⟩ <;> cases h
    have h4 : (match (fillTemplate w (w.scanContributions c) tpl
          (newWriter (w.createError cli.output).isNone)).exit with
        | some _ => []
        | none => [Event.printInfo ("\nReport saved in: " ++ cli.output)]).count x = 0 := by
      rw [List.count_eq_zero]
      intro hm
      have h := htail x hm
      rcases hx with ⟨p, rfl⟩ | ⟨c2, rfl⟩ <;> cases h
    rw [h1, h2, h3, h4]
    simp
  have hmem : ∀ e ∈ (run cli w).events,
      e = Event.openFile cli.config ∨ e ∈ (templateData w cli.template).1
        ∨ e = Event.scanContributions c
        ∨ (e = Event.create cli.output ∨ ∃ err, e = Event.stderr (err ++ "\n"))
        ∨ (e = Event.parseTemplate tpl ∨ e = Event.executeTemplate (w.scanContributions c)
            ∨ (∃ err, e = Event.stderr (err ++ "\n")) ∨ e = Event.exit 1)
        ∨ e = Event.printInfo ("\nReport saved in: " ++ cli.output) := by
    intro e he
    rw [hev] at he
    simp only [List.mem_append, List.mem_singleton] at he
    rcases he with ((((he | he) | he) | he) | he) | he
    · exact Or.inl he
    · exact Or.inr (Or.inl he)
    · exact Or.inr (Or.inr (Or.inl he))
    · exact Or.inr (Or.inr (Or.inr (Or.inl (hcreate e he))))
    · exact Or.inr (Or.inr (Or.inr (Or.inr (Or.inl (hfillmem e he)))))
    · exact Or.inr (Or.inr (Or.inr (Or.inr (Or.inr (htail e he)))))
  refine ⟨?_, ?_, ?_, ?_, ?_, ?_, ?_, ?_⟩
  · rw [hcount _ (Or.inl ⟨_, rfl⟩)]
    simp
  · rw [hcount _ (Or.inr ⟨_, rfl⟩)]
    simp
  · intro c2 hm
    rcases hmem _ hm with h | h | h | (h | ⟨err, h⟩) | (h | h | ⟨err, h⟩ | h) | h
    · cases h
    · exact absurd h (templateData_no_scan _ _ _)
    · cases h
      rfl
    all_goals cases h
  · exact ⟨_, _, hev⟩
  · intro d hm
    rcases hmem _ hm with h | h | h | (h | ⟨err, h⟩) | (h | h | ⟨err, h⟩ | h) | h
    · cases h
    · exact absurd h (templateData_no_execute _ _ _)
    · cases h
    · cases h
    · cases h
    · cases h
    · cases h
      rfl
    all_goals cases h
  · intro hp
    rw [hev]
    rcases hfill with ⟨err, h, _⟩ | ⟨_, h | ⟨err, h⟩⟩
    · rw [hp] at h
      cases h
    · rw [h]
      simp
    · rw [h]
      simp
  · intro hp
    have ho := (run_outcome_of_loaded cli w tpl hc2 ht).1
    rw [hc1] at ho
    unfold outputWriter at ho
    obtain ⟨hw, hx⟩ := fillTemplate_of_parsed w (w.scanContributions c) tpl
      (newWriter (w.createError cli.output).isNone) hp
    rw [ho, hw, hx]
    generalize saveError
      (writeChunks (newWriter (w.createError cli.output).isNone)
        (w.executeTemplate tpl (w.scanContributions c)).1).2
      (w.executeTemplate tpl (w.scanContributions c)).2 = se
    cases se <;> rfl
  · intro hp hce hout
    have ho := run_outcome_of_loaded cli w tpl hc2 ht
    rw [hc1] at ho
    unfold outputWriter at ho
    obtain ⟨hw, hx⟩ := fillTemplate_of_parsed w (w.scanContributions c) tpl
      (newWriter (w.createError cli.output).isNone) hp
    rw [hw, hx, hce] at ho
    simp only [Option.isNone] at ho
    obtain ⟨k1, k2, k3, k4⟩ := writeChunks_valid
      (w.executeTemplate tpl (w.scanContributions c)).1 (newWriter true) rfl rfl
    rw [k1, hout] at ho
    simp only [saveError] at ho
    obtain ⟨f1, f2, f3, f4, f5⟩ := flush_valid _ k2 k3
    refine ⟨?_, ho.2⟩
    rw [ho.1]
    unfold storeOutput
    rw [f2]
    simp only [if_true]
    rw [f4, k4]
    simp [newWriter]

/-- Witness of C3: the run on the small configuration with the bundled
template; the output file holds the template chunk and one chunk for each of
the two scanned contributions. -/
theorem run_renders_scan_of_loaded_config_witness :
    ((run {} (demoWorld goodConfigText "")).events.count (.openFile "gontrib.json") = 1
      ∧ ∀ d, Event.executeTemplate d ∈ (run {} (demoWorld goodConfigText "")).events →
          d = ScanContributions backendBusy
            { Emails := .mk ["jubalh@openmailbox.org"],
              Projects := .mk [{ Name := "p", Gitrepos := .mk ["r1", "r2"] }, { Name := "q" }] })
      ∧ ((run {} (demoWorld goodConfigText "")).files "output.html"
            = .regular "bundled templatepq"
          ∧ (run {} (demoWorld goodConfigText "")).status = 0) :=
  have h := run_renders_scan_of_loaded_config {} (demoWorld goodConfigText "")
    { Emails := .mk ["jubalh@openmailbox.org"],
      Projects := .mk [{ Name := "p", Gitrepos := .mk ["r1", "r2"] }, { Name := "q" }] }
    "bundled template" (by decide) rfl
  ⟨⟨h.1, h.2.2.2.2.1⟩, h.2.2.2.2.2.2.2 rfl rfl rfl⟩

/-- In a run whose configuration loads, the text handed to the template
parser is the text the template lookup produced. -/
theorem run_parse_mem (cli : Context) (w : World) (hc : (loadConfig w cli.config).2.2 = none)
    (text : String) :
    Event.parseTemplate text ∈ (run cli w).events ↔ (templateData w cli.template).2 = .ok text := by
  cases ht : (templateData w cli.template).2 with
  | error msg =>
    rw [run_of_template_error cli w msg hc ht]
    constructor
    · intro hm
      simp only [List.mem_append, List.mem_cons, List.mem_singleton, List.not_mem_nil,
        or_false] at hm
      rcases hm with (hm | hm) | hm | hm
      · cases hm
      · rcases templateData_events w cli.template _ hm with h | ⟨a, h⟩ | ⟨p, h⟩ | ⟨p, h⟩ <;>
          cases h
      · cases hm
      · cases hm
    · intro h
      cases h
  | ok tpl =>
    rw [run_events_of_loaded cli w tpl hc ht]
    have hfill := fillTemplate_events w (w.scanContributions (loadConfig w cli.config).2.1) tpl
      (outputWriter cli w)
    constructor
    · intro hm
      simp only [eventsBeforeFill, List.mem_append, List.mem_singleton] at hm
      rcases hm with ((((hm | hm) | hm) | hm) | hm) | hm
      · cases hm
      · rcases templateData_events w cli.template _ hm with h | ⟨a, h⟩ | ⟨p, h⟩ | ⟨p, h⟩ <;>
          cases h
      · cases hm
      · split at hm <;> simp at hm
      · rcases hfill with ⟨err, _, h⟩ | ⟨_, h | ⟨err, h⟩⟩ <;>
          (rw [h] at hm; simp at hm; rw [hm])
      · split at hm <;> simp at hm
    · intro h
      have htt : text = tpl := by
        injection h with h
        exact h.symm
      rw [htt]
      have : Event.parseTemplate tpl ∈ (fillTemplate w
          (w.scanContributions (loadConfig w cli.config).2.1) tpl (outputWriter cli w)).events := by
        rcases hfill with ⟨err, _, h⟩ | ⟨_, h | ⟨err, h⟩⟩ <;> (rw [h]; simp)
      simp [this]

/-- The lookups of `run` all belong to its template lookup. -/
theorem run_lookup_mem (cli : Context) (w : World) (e : Event)
    (hk : (∃ a, e = .asset a) ∨ (∃ p, e = .fileExists p) ∨ ∃ p, e = .readFile p)
    (hm : e ∈ (run cli w).events) : e ∈ (templateData w cli.template).1 := by
  cases hc : (loadConfig w cli.config).2.2 with
  | some err =>
    rw [run_of_load_error cli w err hc] at hm
    simp at hm
    rcases hm with rfl | rfl | rfl <;> rcases hk with ⟨a, h⟩ | ⟨p, h⟩ | ⟨p, h⟩ <;> cases h
  | none =>
    cases ht : (templateData w cli.template).2 with
    | error msg =>
      rw [run_of_template_error cli w msg hc ht] at hm
      simp only [List.mem_append, List.mem_cons, List.mem_singleton, List.not_mem_nil,
        or_false] at hm
      rcases hm with (hm | hm) | hm | hm
      · subst hm
        rcases hk with ⟨a, h⟩ | ⟨p, h⟩ | ⟨p, h⟩ <;> cases h
      · exact hm
      · subst hm
        rcases hk with ⟨a, h⟩ | ⟨p, h⟩ | ⟨p, h⟩ <;> cases h
      · subst hm
        rcases hk with ⟨a, h⟩ | ⟨p, h⟩ | ⟨p, h⟩ <;> cases h
    | ok tpl =>
      rw [run_events_of_loaded cli w tpl hc ht] at hm
      have hfill := fillTemplate_events w (w.scanContributions (loadConfig w cli.config).2.1)
        tpl (outputWriter cli w)
      simp only [eventsBeforeFill, List.mem_append, List.mem_singleton] at hm
      rcases hm with ((((hm | hm) | hm) | hm) | hm) | hm
      · subst hm
        rcases hk with ⟨a, h⟩ | ⟨p, h⟩ | ⟨p, h⟩ <;> cases h
      · exact hm
      · subst hm
        rcases hk with ⟨a, h⟩ | ⟨p, h⟩ | ⟨p, h⟩ <;> cases h
      · split at hm <;> simp at hm
        · rcases hm with rfl | rfl <;> rcases hk with ⟨a, h⟩ | ⟨p, h⟩ | ⟨p, h⟩ <;> cases h
        · subst hm
          rcases hk with ⟨a, h⟩ | ⟨p, h⟩ | ⟨p, h⟩ <;> cases h
      · rcases hfill with ⟨err, _, h⟩ | ⟨_, h | ⟨err, h⟩⟩ <;>
          (rw [h] at hm; simp at hm) <;>
          (rcases hm with rfl | rfl | rfl | rfl <;>
            rcases hk with ⟨a, h⟩ | ⟨p, h⟩ | ⟨p, h⟩ <;> cases h)
      · split at hm <;> simp at hm
        subst hm
        rcases hk with ⟨a, h⟩ | ⟨p, h⟩ | ⟨p, h⟩ <;> cases h

/-- C6: in a run whose configuration loads, the source of the template text
is decided by `GONTRIB_TEMPLATES_PTH` alone.  When it is empty the text
handed to the template parser is the bundled asset at
`Join("templates", name)` and no file is looked up.  When it is not empty
the text is the content of the file at `Join(GONTRIB_TEMPLATES_PTH, name)`,
`Asset` is never called, and the run is the same whatever the bundled assets
are; in particular a missing file ends the run without a fallback. -/
theorem run_template_source (cli : Context) (w : World)
    (hc : (loadConfig w cli.config).2.2 = none) :
    (w.getenv templatesFolderEnv = "" →
        (∀ text, Event.parseTemplate text ∈ (run cli w).events
            ↔ w.asset (filepathJoin templateFolderName cli.template) = .ok text)
          ∧ ∀ p, Event.fileExists p ∉ (run cli w).events ∧ Event.readFile p ∉ (run cli w).events)
      ∧ (w.getenv templatesFolderEnv ≠ "" →
          (∀ text, Event.parseTemplate text ∈ (run cli w).events
              ↔ (w.fileExists (filepathJoin (w.getenv templatesFolderEnv) cli.template) = true
                  ∧ readFile w (filepathJoin (w.getenv templatesFolderEnv) cli.template)
                      = .ok text))
            ∧ (∀ a, Event.asset a ∉ (run cli w).events)
            ∧ (∀ asset2, run cli { w with asset := asset2 } = run cli w)
            ∧ (w.files (filepathJoin (w.getenv templatesFolderEnv) cli.template) = .absent →
                (run cli w).status = 1 ∧ ∀ text, Event.parseTemplate text ∉ (run cli w).events)) := by
  constructor
  · intro henv
    constructor
    · intro text
      rw [run_parse_mem cli w hc]
      unfold templateData
      simp only [henv, if_true]
      split <;> rename_i h <;> simp [h]
    · intro p
      constructor
      · intro hm
        have h := run_lookup_mem cli w _ (Or.inr (Or.inl ⟨p, rfl⟩)) hm
        unfold templateData at h
        simp only [henv, if_true] at h
        split at h <;> simp at h
      · intro hm
        have h := run_lookup_mem cli w _ (Or.inr (Or.inr ⟨p, rfl⟩)) hm
        unfold templateData at h
        simp only [henv, if_true] at h
        split at h <;> simp at h
  · intro henv
    have hparse : ∀ text, Event.parseTemplate text ∈ (run cli w).events
        ↔ (w.fileExists (filepathJoin (w.getenv templatesFolderEnv) cli.template) = true
            ∧ readFile w (filepathJoin (w.getenv templatesFolderEnv) cli.template)
                = .ok text) := by
      intro text
      rw [run_parse_mem cli w hc]
      unfold templateData
      simp only [henv, if_false]
      cases hx : w.fileExists (filepathJoin (w.getenv templatesFolderEnv) cli.template) with
      | false => simp
      | true =>
        simp only [Bool.not_true, Bool.false_eq_true, if_false, true_and]
        split <;> rename_i h <;> simp [h]
    refine ⟨hparse, ?_, ?_, ?_⟩
    · intro a hm
      have h := run_lookup_mem cli w _ (Or.inl ⟨a, rfl⟩) hm
      unfold templateData at h
      simp only [henv, if_false] at h
      split at h
      · simp at h
      · split at h <;> simp at h
    · intro asset2
      have h1 : templateData { w with asset := asset2 } cli.template
          = templateData w cli.template := by
        unfold templateData
        simp only [henv, if_false]
        rfl
      unfold run
      simp only [h1]
      rfl
    · intro habs
      obtain ⟨msg, ht⟩ := templateData_error_of_unavailable w cli.template
        (Or.inr ⟨henv, Or.inr (Or.inl habs)⟩)
      refine ⟨by rw [run_of_template_error cli w msg hc ht], ?_⟩
      intro text hm
      rw [run_parse_mem cli w hc, ht] at hm
      cases hm

/-- Witness of C6: with the variable empty the bundled template is parsed;
with the variable set to `/t` the file `/t/default.html` is parsed and the
bundled assets are not touched. -/
theorem run_template_source_witness :
    (∀ text, Event.parseTemplate text ∈ (run {} (demoWorld goodConfigText "")).events
        ↔ (demoWorld goodConfigText "").asset
            (filepathJoin templateFolderName ({} : Context).template) = .ok text)
      ∧ (∀ a, Event.asset a ∉ (run {} (demoWorld goodConfigText "/t")).events)
      ∧ Event.parseTemplate "user template" ∈ (run {} (demoWorld goodConfigText "/t")).events :=
  ⟨((run_template_source {} (demoWorld goodConfigText "") (by decide)).1 (by decide)).1,
   ((run_template_source {} (demoWorld goodConfigText "/t") (by decide)).2 (by decide)).2.1,
   by decide⟩

/-! ## Lemmas on the scanner -/

theorem scan_foldl (b : Backend) (emails : List String) (ps : List Project)
    (acc : List Contribution × List String) :
    ps.foldl (fun acc p =>
        let r := aggregate b emails p
        (acc.1 ++ [r.1], acc.2 ++ r.2)) acc
      = (acc.1 ++ ps.map (fun p => (aggregate b emails p).1),
         acc.2 ++ (ps.map (fun p => (aggregate b emails p).2)).flatten) := by
  induction ps generalizing acc with
  | nil => simp
  | cons p ps ih =>
    simp only [List.foldl_cons, List.map_cons, List.flatten_cons]
    rw [ih]
    simp

theorem scanContributions_eq_map (b : Backend) (c : Configuration) :
    ScanContributions b c = c.Projects.elems.map (fun p => (aggregate b c.Emails.elems p).1) := by
  unfold ScanContributions scan
  rw [scan_foldl]
  simp

/-- The facts on template execution in a run that gets past configuration
and template. -/
theorem run_execute_mem (cli : Context) (w : World) (tpl : String)
    (hc : (loadConfig w cli.config).2.2 = none)
    (ht : (templateData w cli.template).2 = .ok tpl) :
    (∀ d, Event.executeTemplate d ∈ (run cli w).events →
        d = w.scanContributions (loadConfig w cli.config).2.1)
      ∧ (w.parseTemplate tpl = none →
          Event.executeTemplate (w.scanContributions (loadConfig w cli.config).2.1)
            ∈ (run cli w).events) := by
  rw [run_events_of_loaded cli w tpl hc ht]
  have hfill := fillTemplate_events w (w.scanContributions (loadConfig w cli.config).2.1) tpl
    (outputWriter cli w)
  constructor
  · intro d hm
    simp only [eventsBeforeFill, List.mem_append, List.mem_singleton] at hm
    rcases hm with ((((hm | hm) | hm) | hm) | hm) | hm
    · cases hm
    · exact absurd hm (templateData_no_execute _ _ _)
    · cases hm
    · split at hm <;> simp at hm
    · rcases hfill with ⟨err, _, h⟩ | ⟨_, h | ⟨err, h⟩⟩ <;>
        (rw [h] at hm; simp at hm; try exact hm)
    · split at hm <;> simp at hm
  · intro hp
    rcases hfill with ⟨err, h, _⟩ | ⟨_, h | ⟨err, h⟩⟩
    · rw [hp] at h
      cases h
    · rw [h]
      simp
    · rw [h]
      simp

/-- C4: for every configuration, the scan returns as many Contribution
records as there are projects, and the record at each position carries the
name, description and URL of the project at that position; so in a run that
scans with it, every sequence the template is executed on has one entry per
configured project, in input order, and the template is executed when it
parses. -/
theorem scan_one_record_per_project (b : Backend) (c : Configuration) :
    (ScanContributions b c).length = c.Projects.elems.length
      ∧ (ScanContributions b c).map Contribution.descriptive
          = c.Projects.elems.map Project.descriptive
      ∧ ∀ (cli : Context) (w : World) (tpl : String),
          w.scanContributions = ScanContributions b →
          (loadConfig w cli.config).2 = (c, none) →
          (templateData w cli.template).2 = .ok tpl →
          (∀ d, Event.executeTemplate d ∈ (run cli w).events →
              d.length = c.Projects.elems.length
                ∧ d.map Contribution.descriptive = c.Projects.elems.map Project.descriptive)
            ∧ (w.parseTemplate tpl = none →
                ∃ d, Event.executeTemplate d ∈ (run cli w).events) := by
  have hlen : (ScanContributions b c).length = c.Projects.elems.length := by
    rw [scanContributions_eq_map]
    simp
  have hmap : (ScanContributions b c).map Contribution.descriptive
      = c.Projects.elems.map Project.descriptive := by
    rw [scanContributions_eq_map, List.map_map]
    rfl
  refine ⟨hlen, hmap, ?_⟩
  intro cli w tpl hs hc ht
  have hc1 : (loadConfig w cli.config).2.1 = c := by rw [hc]
  have hc2 : (loadConfig w cli.config).2.2 = none := by rw [hc]
  have h := run_execute_mem cli w tpl hc2 ht
  rw [hc1, hs] at h
  constructor
  · intro d hd
    rw [h.1 d hd]
    exact ⟨hlen, hmap⟩
  · intro hp
    exact ⟨_, h.2 hp⟩

/-- Witness of C4: the small configuration with two projects, scanned in a
run with the bundled template. -/
theorem scan_one_record_per_project_witness :
    (∀ d, Event.executeTemplate d ∈ (run {} (demoWorld goodConfigText "")).events →
        d.length = 2
          ∧ d.map Contribution.descriptive = [("p", "", ""), ("q", "", "")])
      ∧ ∃ d, Event.executeTemplate d ∈ (run {} (demoWorld goodConfigText "")).events :=
  have h := (scan_one_record_per_project backendBusy
      { Emails := .mk ["jubalh@openmailbox.org"],
        Projects := .mk [{ Name := "p", Gitrepos := .mk ["r1", "r2"] }, { Name := "q" }] }).2.2
    {} (demoWorld goodConfigText "") "bundled template" rfl (by decide) rfl
  ⟨h.1, h.2 (by decide)⟩

/-! ## The example configuration -/

set_option maxRecDepth 100000 in
/-- Decoding what `cmdExconf` prints gives the example back. -/
theorem decode_exconf :
    decode (stdoutOf (cmdExconf {})) {} = (exampleConfiguration, none) := by
  decide

set_option maxRecDepth 100000 in
/-- What `cmdExconf` prints is one JSON object with the members `Emails` and
`Projects`, and every item of `Projects` has the six members of a project. -/
theorem exconf_shape :
    (readValue (stdoutOf (cmdExconf {})).data).toOption.map Json.keys
        = some ["Emails", "Projects"]
      ∧ (readValue (stdoutOf (cmdExconf {})).data).toOption.map
          (fun doc => (((doc.member "Projects").map Json.items).getD []).map Json.keys)
        = some (List.replicate 4
            ["Name", "Description", "URL", "Gitrepos", "MediaWikis", "Obs"]) := by
  decide

/-- C5: the example configuration of `cmdExconf` round-trips.  `cmdExconf`
prints to standard output only; what it prints is a JSON object with the
members `Emails` and `Projects`, each project with the members `Name`,
`Description`, `URL`, `Gitrepos`, `MediaWikis`, `Obs`; and `loadConfig` on a
file holding what was printed returns the example configuration and no
error. -/
theorem exconf_roundtrip (cli : Context) (w : World) (path : String)
    (hfile : w.files path = .regular (stdoutOf (cmdExconf cli))) :
    (loadConfig w path).2 = (exampleConfiguration, none)
      ∧ (∀ e ∈ cmdExconf cli, ∃ text, e = .stdout text)
      ∧ (readValue (stdoutOf (cmdExconf cli)).data).toOption.map Json.keys
          = some ["Emails", "Projects"]
      ∧ (readValue (stdoutOf (cmdExconf cli)).data).toOption.map
          (fun doc => (((doc.member "Projects").map Json.items).getD []).map Json.keys)
          = some (List.replicate 4
              ["Name", "Description", "URL", "Gitrepos", "MediaWikis", "Obs"]) := by
  have hcli : cmdExconf cli = cmdExconf {} := rfl
  rw [hcli] at hfile ⊢
  refine ⟨?_, ?_, exconf_shape.1, exconf_shape.2⟩
  · unfold loadConfig openFile
    rw [hfile]
    simp only [decode_exconf]
  · intro e he
    unfold cmdExconf marshalIndent at he
    simp only [List.mem_singleton] at he
    exact ⟨_, he⟩

/-- Witness of C5: the demo world whose configuration file holds what
`cmdExconf` printed. -/
theorem exconf_roundtrip_witness :
    (loadConfig (demoWorld (stdoutOf (cmdExconf {})) "") "gontrib.json").2
      = (exampleConfiguration, none) :=
  (exconf_roundtrip {} (demoWorld (stdoutOf (cmdExconf {})) "") "gontrib.json" rfl).1

end Gontributions
